import Mathlib

/-!
Verification development for the `sync-mcp-cfg` client adapter layer.

The Python source is shallowly embedded as pure Lean functions:

* a configuration file is a `PFile` (missing, unparseable bytes, or a parsed
  JSON value `JVal`);
* `MCPServer` mirrors `core/models.py`'s pydantic model, with `mkServer`
  playing the role of construction-time validation (the `validate_name` and
  `validate_url` validators);
* each client handler's `load_servers` / `save_servers` / `restore_config`
  is embedded as a pure function over `PFile`; the shared `add_server`,
  `remove_server` and `get_server` bodies (textually identical in every
  handler class) are embedded once, generically, in `Handler`.

Modelling boundaries: filesystem / OS errors are out of scope (a write either
happens or the operation failed earlier); places where the Python code would
crash with an `AttributeError`/`TypeError` on misshapen JSON, or where
pydantic would apply its own type coercions, are modelled as the error
`ErrKind.pyError`.  No theorem below depends on the behaviour at such inputs.
-/

/-- Abstract error kinds raised by the embedded code, mirroring
`core/exceptions.py` plus `pyError` for raw Python-level crashes and
`valueError` for builtin `ValueError`. -/
inductive ErrKind where
  | clientHandlerError
  | configurationError
  | validationError
  | valueError
  | pyError
  deriving DecidableEq, Repr

/-- Transport types, `MCPServerType` in `core/models.py`. -/
inductive MCPServerType where
  | stdio
  | sse
  | http
  deriving DecidableEq, Repr

/-- String value of a transport, as in the Python `str`-enum. -/
def MCPServerType.value : MCPServerType → String
  | .stdio => "stdio"
  | .sse => "sse"
  | .http => "http"

/-- Canonical server record, `MCPServer` in `core/models.py`.  `env` is an
association list because Python dicts preserve insertion order. -/
structure MCPServer where
  name : String
  command : String
  args : List String
  env : List (String × String)
  server_type : MCPServerType
  url : Option String
  enabled : Bool
  description : Option String
  deriving DecidableEq, Repr

/-- JSON values.  Objects are ordered association lists, like Python dicts
produced by `json.load`. -/
inductive JVal where
  | jnull
  | jbool (b : Bool)
  | jnum (n : Int)
  | jstr (s : String)
  | jarr (xs : List JVal)
  | jobj (fields : List (String × JVal))

/-- State of a configuration (or backup) file: absent, present but not
parseable as JSON, or present with parsed content `v`. -/
inductive PFile where
  | missing
  | invalid
  | content (v : JVal)

/-- Python truthiness of a JSON value. -/
def pyTruthy : JVal → Bool
  | .jnull => false
  | .jbool b => b
  | .jnum n => n != 0
  | .jstr s => !s.isEmpty
  | .jarr xs => !xs.isEmpty
  | .jobj fs => !fs.isEmpty

/-- Python truthiness of an optional string (`None` and `""` are falsy). -/
def pyTruthyOptStr : Option String → Bool
  | none => false
  | some s => !s.isEmpty

/-- Dictionary member lookup (first match; parsed JSON has unique keys). -/
def jlookup : List (String × JVal) → String → Option JVal
  | [], _ => none
  | (k', v) :: rest, k => if k' == k then some v else jlookup rest k

/-- Dictionary assignment `d[k] = v`: replace in place, else append. -/
def jset : List (String × JVal) → String → JVal → List (String × JVal)
  | [], k, v => [(k, v)]
  | (k', v') :: rest, k, v => if k' == k then (k, v) :: rest else (k', v') :: jset rest k v

/-- Dictionary deletion `del d[k]`. -/
def jdel : List (String × JVal) → String → List (String × JVal)
  | [], _ => []
  | (k', v) :: rest, k => if k' == k then jdel rest k else (k', v) :: jdel rest k

/-- Reads `d.get(k, dflt)` where the value must be a JSON string. -/
def getStrD (o : List (String × JVal)) (k : String) (dflt : String) : Except ErrKind String :=
  match jlookup o k with
  | none => .ok dflt
  | some (.jstr s) => .ok s
  | some _ => .error .pyError

/-- Reads `d.get(k)` as an optional string: a missing key and JSON `null`
both become Python `None`. -/
def getOptStr (o : List (String × JVal)) (k : String) : Except ErrKind (Option String) :=
  match jlookup o k with
  | none => .ok none
  | some .jnull => .ok none
  | some (.jstr s) => .ok (some s)
  | some _ => .error .pyError

/-- Reads `d.get(k, dflt)` where the value must be a JSON boolean. -/
def getBoolD (o : List (String × JVal)) (k : String) (dflt : Bool) : Except ErrKind Bool :=
  match jlookup o k with
  | none => .ok dflt
  | some (.jbool b) => .ok b
  | some _ => .error .pyError

/-- Reads a JSON array of strings. -/
def readStrList : List JVal → Except ErrKind (List String)
  | [] => .ok []
  | .jstr s :: rest =>
    match readStrList rest with
    | .ok l => .ok (s :: l)
    | .error e => .error e
  | _ :: _ => .error .pyError

/-- Reads a JSON object whose values are all strings. -/
def readStrMap : List (String × JVal) → Except ErrKind (List (String × String))
  | [] => .ok []
  | (k, .jstr s) :: rest =>
    match readStrMap rest with
    | .ok l => .ok ((k, s) :: l)
    | .error e => .error e
  | (_, _) :: _ => .error .pyError

/-- Reads `d.get(k, [])` as a list of strings. -/
def getStrListD (o : List (String × JVal)) (k : String) : Except ErrKind (List String) :=
  match jlookup o k with
  | none => .ok []
  | some (.jarr xs) => readStrList xs
  | some _ => .error .pyError

/-- Reads `d.get(k, \x7b\x7d)` as a string-to-string mapping. -/
def getStrMapD (o : List (String × JVal)) (k : String) : Except ErrKind (List (String × String)) :=
  match jlookup o k with
  | none => .ok []
  | some (.jobj fs) => readStrMap fs
  | some _ => .error .pyError

/-- Characters allowed in a server name by `MCPServer.validate_name`. -/
def allowedNameChar (c : Char) : Bool :=
  c.isAlpha || c.isDigit || c == '-' || c == '_'

/-- Python `str.strip()` on a character list (leading and trailing
whitespace removed). -/
def pyStripL (l : List Char) : List Char :=
  ((l.dropWhile Char.isWhitespace).reverse.dropWhile Char.isWhitespace).reverse

/-- Python `str.strip()`. -/
def pyStrip (s : String) : String := ⟨pyStripL s.data⟩

/-- The `validate_name` validator: rejects empty / all-whitespace names and
names with characters outside letters, digits, hyphen, underscore; returns
the stripped name. -/
def validateName (v : String) : Except ErrKind String :=
  if v.data.isEmpty || (pyStripL v.data).isEmpty then .error .validationError
  else if v.data.all allowedNameChar then .ok (pyStrip v)
  else .error .validationError

/-- Whether a transport requires a URL (`validate_url` fires for sse/http). -/
def stypeNeedsUrl : MCPServerType → Bool
  | .stdio => false
  | .sse => true
  | .http => true

/-- Validating constructor for `MCPServer`: runs the pydantic validators
(`validate_name`, then `validate_url`) and builds the record. -/
def mkServer (name command : String) (args : List String) (env : List (String × String))
    (st : MCPServerType) (url : Option String) (enabled : Bool) (description : Option String) :
    Except ErrKind MCPServer :=
  match validateName name with
  | .error e => .error e
  | .ok n =>
    if stypeNeedsUrl st && !pyTruthyOptStr url then .error .validationError
    else .ok ⟨n, command, args, env, st, url, enabled, description⟩

/-- A record is well formed when its name survives `validate_name`
unchanged and its URL satisfies the sse/http requirement; every record
produced by `mkServer` is well formed. -/
def wfServer (s : MCPServer) : Bool :=
  (match validateName s.name with
   | .ok n => n == s.name
   | .error _ => false)
  && (!stypeNeedsUrl s.server_type || pyTruthyOptStr s.url)

/-- Reads the `type` field the way every mapping-of-objects loader does:
`get('type', 'stdio')` compared against the three transport strings, with
anything unrecognised falling back to stdio. -/
def typeFromField (o : List (String × JVal)) : MCPServerType :=
  match jlookup o "type" with
  | some (.jstr "sse") => .sse
  | some (.jstr "http") => .http
  | _ => .stdio

/-- Generic loop body shared by the mapping-of-objects loaders: iterate the
entries of the storage mapping, parse each into an `MCPServer`, propagating
the first failure (pydantic validation errors are not caught in
`load_servers`). -/
def loadEntriesWith (parse : String → JVal → Except ErrKind MCPServer) :
    List (String × JVal) → Except ErrKind (List MCPServer)
  | [] => .ok []
  | (k, v) :: rest =>
    match parse k v with
    | .error e => .error e
    | .ok s =>
      match loadEntriesWith parse rest with
      | .error e => .error e
      | .ok ss => .ok (s :: ss)

/-- Generic loop body for list-shaped storage (cursor native format). -/
def loadListWith (parse : JVal → Except ErrKind MCPServer) :
    List JVal → Except ErrKind (List MCPServer)
  | [] => .ok []
  | v :: rest =>
    match parse v with
    | .error e => .error e
    | .ok s =>
      match loadListWith parse rest with
      | .error e => .error e
      | .ok ss => .ok (s :: ss)

/-- One step of building a storage mapping: dict assignment
`mcp_servers[server.name] = enc(server)`, or nothing when the encoder skips
the record (`enc = none`, only used by the opencode handler). -/
def buildStep (enc : MCPServer → Option JVal) (acc : List (String × JVal)) (s : MCPServer) :
    List (String × JVal) :=
  match enc s with
  | none => acc
  | some v => jset acc s.name v

/-- Builds a storage mapping by successive dict assignment over the record
list. -/
def buildObjWith (enc : MCPServer → Option JVal) (servers : List MCPServer) :
    List (String × JVal) :=
  servers.foldl (buildStep enc) []

/-- One entry of `mcpServers` in `ClaudeCodeHandler.load_servers`. -/
def parseEntryClaude (name : String) (v : JVal) : Except ErrKind MCPServer :=
  match v with
  | .jobj sc =>
    match getStrD sc "command" "" with
    | .error e => .error e
    | .ok command =>
      match getStrListD sc "args" with
      | .error e => .error e
      | .ok args =>
        match getStrMapD sc "env" with
        | .error e => .error e
        | .ok env =>
          match getOptStr sc "url" with
          | .error e => .error e
          | .ok url =>
            mkServer name command args env (typeFromField sc) url true none
  | _ => .error .pyError

/-- The `url` entry written by the savers: present only when the record's
URL is truthy (`if server.url:`). -/
def optUrlEntry (u : Option String) (key : String) : List (String × JVal) :=
  match u with
  | none => []
  | some s => if s.isEmpty then [] else [(key, .jstr s)]

/-- The `type` entry written by the savers: present only when not stdio. -/
def optTypeEntry (st : MCPServerType) : List (String × JVal) :=
  match st with
  | .stdio => []
  | st => [("type", .jstr st.value)]

/-- Per-server object written by `ClaudeCodeHandler.save_servers`. -/
def serverToClaude (s : MCPServer) : JVal :=
  .jobj ([("command", .jstr s.command),
          ("args", .jarr (s.args.map .jstr)),
          ("env", .jobj (s.env.map (fun p => (p.1, .jstr p.2))))]
    ++ optTypeEntry s.server_type
    ++ optUrlEntry s.url "url")

/-- Body of `ClaudeCodeHandler.load_servers` on a parsed object:
`config_data.get('mcpServers', {})` iterated entry by entry. -/
def claudeCodeLoadFields (fields : List (String × JVal)) : Except ErrKind (List MCPServer) :=
  match jlookup fields "mcpServers" with
  | none => .ok []
  | some (.jobj m) => loadEntriesWith parseEntryClaude m
  | some _ => .error .pyError

/-- `ClaudeCodeHandler.load_servers`. -/
def claudeCodeLoad (f : PFile) : Except ErrKind (List MCPServer) :=
  match f with
  | .missing => .ok []
  | .invalid => .error .clientHandlerError
  | .content (.jobj fields) => claudeCodeLoadFields fields
  | .content _ => .error .pyError

/-- `ClaudeCodeHandler.save_servers`: re-read the live file (corrupt or
missing content starts fresh), replace only the `mcpServers` key, keep every
other top-level key. -/
def claudeCodeSaveFields (fields : List (String × JVal)) (servers : List MCPServer) : JVal :=
  .jobj (jset fields "mcpServers" (.jobj (buildObjWith (fun s => some (serverToClaude s)) servers)))

/-- `ClaudeCodeHandler.save_servers` dispatch on the state of the live file
(corrupt or missing content starts from an empty object). -/
def claudeCodeSave (f : PFile) (servers : List MCPServer) : Except ErrKind JVal :=
  match f with
  | .missing => .ok (claudeCodeSaveFields [] servers)
  | .invalid => .ok (claudeCodeSaveFields [] servers)
  | .content (.jobj fields) => .ok (claudeCodeSaveFields fields servers)
  | .content _ => .error .pyError

/-- Reads `d.get('description', dflt)` where a present `null` is Python
`None` (so the default only applies to a missing key). -/
def getDescD (o : List (String × JVal)) (dflt : Option String) : Except ErrKind (Option String) :=
  match jlookup o "description" with
  | none => .ok dflt
  | some .jnull => .ok none
  | some (.jstr s) => .ok (some s)
  | some _ => .error .pyError

/-- One entry of `mcp.servers` in `VSCodeHandler.load_servers`. -/
def parseEntryVSCode (name : String) (v : JVal) : Except ErrKind MCPServer :=
  match v with
  | .jobj sc =>
    match getStrD sc "command" "" with
    | .error e => .error e
    | .ok command =>
      match getStrListD sc "args" with
      | .error e => .error e
      | .ok args =>
        match getStrMapD sc "env" with
        | .error e => .error e
        | .ok env =>
          match getOptStr sc "url" with
          | .error e => .error e
          | .ok url =>
            match getDescD sc (some "VS Code MCP Server") with
            | .error e => .error e
            | .ok desc =>
              mkServer name command args env (typeFromField sc) url true desc
  | _ => .error .pyError

/-- Per-server object written by `VSCodeHandler.save_servers` (`env` only
when non-empty). -/
def serverToVSCode (s : MCPServer) : JVal :=
  .jobj ([("command", .jstr s.command),
          ("args", .jarr (s.args.map .jstr))]
    ++ (if s.env.isEmpty then [] else [("env", .jobj (s.env.map (fun p => (p.1, .jstr p.2))))])
    ++ optTypeEntry s.server_type
    ++ optUrlEntry s.url "url")

/-- Body of `VSCodeHandler.load_servers` on a parsed object: servers live
under the nested `mcp.servers` path of `settings.json`. -/
def vscodeLoadFields (fields : List (String × JVal)) : Except ErrKind (List MCPServer) :=
  match jlookup fields "mcp" with
  | none => .ok []
  | some (.jobj m) =>
    match jlookup m "servers" with
    | none => .ok []
    | some (.jobj sc) => loadEntriesWith parseEntryVSCode sc
    | some _ => .error .pyError
  | some _ => .error .pyError

/-- `VSCodeHandler.load_servers`. -/
def vscodeLoad (f : PFile) : Except ErrKind (List MCPServer) :=
  match f with
  | .missing => .ok []
  | .invalid => .error .clientHandlerError
  | .content (.jobj fields) => vscodeLoadFields fields
  | .content _ => .error .pyError

/-- Body of `VSCodeHandler.save_servers` on a parsed object: patch
`mcp.servers` inside the existing settings, creating the `mcp` mapping when
absent; a non-mapping `mcp` value is a Python-level crash. -/
def vscodeSaveFields (fields : List (String × JVal)) (servers : List MCPServer) :
    Except ErrKind JVal :=
  let x : JVal := .jobj (buildObjWith (fun s => some (serverToVSCode s)) servers)
  match jlookup fields "mcp" with
  | none => .ok (.jobj (jset fields "mcp" (.jobj (jset [] "servers" x))))
  | some (.jobj m) => .ok (.jobj (jset fields "mcp" (.jobj (jset m "servers" x))))
  | some _ => .error .pyError

/-- `VSCodeHandler.save_servers`. -/
def vscodeSave (f : PFile) (servers : List MCPServer) : Except ErrKind JVal :=
  match f with
  | .missing => vscodeSaveFields [] servers
  | .invalid => vscodeSaveFields [] servers
  | .content (.jobj fields) => vscodeSaveFields fields servers
  | .content _ => .error .pyError

/-- Python `str()` rendering of an optional JSON value inside an f-string,
used only for the gemini description default. -/
def pyStrOfJ : Option JVal → String
  | none => "None"
  | some .jnull => "None"
  | some (.jbool true) => "True"
  | some (.jbool false) => "False"
  | some (.jnum n) => toString n
  | some (.jstr s) => s
  | some (.jarr _) => ""
  | some (.jobj _) => ""

/-- Python truthiness of a possibly-missing value. -/
def pyTruthyOpt : Option JVal → Bool
  | none => false
  | some v => pyTruthy v

/-- The gemini loader's `url` expression:
`server_config.get('url') or server_config.get('httpUrl')`. -/
def geminiUrl (sc : List (String × JVal)) : Except ErrKind (Option String) :=
  match getOptStr sc "url" with
  | .error e => .error e
  | .ok u1 => if pyTruthyOptStr u1 then .ok u1 else getOptStr sc "httpUrl"

/-- One entry of `mcpServers` in `GeminiCLIHandler.load_servers`: the
`trust` boolean doubles as `enabled`, and the description default is
synthesised from `timeout`/`cwd` when either is truthy. -/
def parseEntryGemini (name : String) (v : JVal) : Except ErrKind MCPServer :=
  match v with
  | .jobj sc =>
    match getStrD sc "command" "" with
    | .error e => .error e
    | .ok command =>
      match getStrListD sc "args" with
      | .error e => .error e
      | .ok args =>
        match getStrMapD sc "env" with
        | .error e => .error e
        | .ok env =>
          match geminiUrl sc with
          | .error e => .error e
          | .ok url =>
            match getBoolD sc "trust" true with
            | .error e => .error e
            | .ok trust =>
              match getDescD sc
                  (if pyTruthyOpt (jlookup sc "timeout") || pyTruthyOpt (jlookup sc "cwd") then
                    some ("Gemini CLI MCP Server (timeout: " ++ pyStrOfJ (jlookup sc "timeout")
                      ++ "ms, cwd: " ++ pyStrOfJ (jlookup sc "cwd") ++ ")")
                  else none) with
              | .error e => .error e
              | .ok desc =>
                mkServer name command args env (typeFromField sc) url trust desc
  | _ => .error .pyError

/-- Per-server object written by `GeminiCLIHandler.save_servers` (`trust`
stores `enabled`; an http URL goes under `httpUrl`). -/
def serverToGemini (s : MCPServer) : JVal :=
  .jobj ([("command", .jstr s.command),
          ("args", .jarr (s.args.map .jstr)),
          ("env", .jobj (s.env.map (fun p => (p.1, .jstr p.2)))),
          ("trust", .jbool s.enabled)]
    ++ optTypeEntry s.server_type
    ++ optUrlEntry s.url (if s.server_type == .http then "httpUrl" else "url"))

/-- Body of `GeminiCLIHandler.load_servers` on a parsed object. -/
def geminiLoadFields (fields : List (String × JVal)) : Except ErrKind (List MCPServer) :=
  match jlookup fields "mcpServers" with
  | none => .ok []
  | some (.jobj m) => loadEntriesWith parseEntryGemini m
  | some _ => .error .pyError

/-- `GeminiCLIHandler.load_servers`. -/
def geminiLoad (f : PFile) : Except ErrKind (List MCPServer) :=
  match f with
  | .missing => .ok []
  | .invalid => .error .clientHandlerError
  | .content (.jobj fields) => geminiLoadFields fields
  | .content _ => .error .pyError

/-- Body of `GeminiCLIHandler.save_servers` on a parsed object. -/
def geminiSaveFields (fields : List (String × JVal)) (servers : List MCPServer) : JVal :=
  .jobj (jset fields "mcpServers" (.jobj (buildObjWith (fun s => some (serverToGemini s)) servers)))

/-- `GeminiCLIHandler.save_servers`. -/
def geminiSave (f : PFile) (servers : List MCPServer) : Except ErrKind JVal :=
  match f with
  | .missing => .ok (geminiSaveFields [] servers)
  | .invalid => .ok (geminiSaveFields [] servers)
  | .content (.jobj fields) => .ok (geminiSaveFields fields servers)
  | .content _ => .error .pyError

/-- The four states `CursorHandler._detect_config_format` can report. -/
inductive CursorFormat where
  | fmtClaude
  | fmtCursor
  | fmtBoth
  | fmtNone
  deriving DecidableEq, Repr

/-- `CursorHandler._detect_config_format`: a storage key counts only when
present *and* truthy (a present-but-empty mapping does not). -/
def detectConfigFormat (fields : List (String × JVal)) : CursorFormat :=
  let hasMcp :=
    match jlookup fields "mcpServers" with
    | some v => pyTruthy v
    | none => false
  let hasSrv :=
    match jlookup fields "servers" with
    | some v => pyTruthy v
    | none => false
  if hasMcp && hasSrv then .fmtBoth
  else if hasMcp then .fmtClaude
  else if hasSrv then .fmtCursor
  else .fmtNone

/-- One entry of `mcpServers` in `CursorHandler._load_claude_format`:
`enabled` is the negated truthiness of a `disabled` field. -/
def parseEntryCursorClaude (name : String) (v : JVal) : Except ErrKind MCPServer :=
  match v with
  | .jobj sc =>
    match getStrD sc "command" "" with
    | .error e => .error e
    | .ok command =>
      match getStrListD sc "args" with
      | .error e => .error e
      | .ok args =>
        match getStrMapD sc "env" with
        | .error e => .error e
        | .ok env =>
          match getOptStr sc "url" with
          | .error e => .error e
          | .ok url =>
            let enabled := !pyTruthyOpt (jlookup sc "disabled")
            mkServer name command args env (typeFromField sc) url enabled none
  | _ => .error .pyError

/-- Helper for `pySplit`: walks the characters, accumulating the current
word in reverse. -/
def pySplitAux : List Char → List Char → List String
  | [], acc => if acc.isEmpty then [] else [⟨acc.reverse⟩]
  | c :: rest, acc =>
    if c.isWhitespace then
      if acc.isEmpty then pySplitAux rest [] else ⟨acc.reverse⟩ :: pySplitAux rest []
    else pySplitAux rest (c :: acc)

/-- Python `str.split()` with no argument: split on whitespace runs,
discarding empty pieces. -/
def pySplit (s : String) : List String :=
  pySplitAux s.data []

/-- Cursor native `type` field: `command` (or anything unrecognised, or a
missing field) means stdio. -/
def cursorTypeFromField (o : List (String × JVal)) : MCPServerType :=
  match jlookup o "type" with
  | some (.jstr "sse") => .sse
  | some (.jstr "http") => .http
  | _ => .stdio

/-- One element of the `servers` list in `CursorHandler._load_cursor_format`:
the single combined command string is split on whitespace into executable
plus args; the native format carries no `env` and no `url`. -/
def parseEntryCursorNative (v : JVal) : Except ErrKind MCPServer :=
  match v with
  | .jobj sc =>
    match getStrD sc "name" "" with
    | .error e => .error e
    | .ok name =>
      match getStrD sc "command" "" with
      | .error e => .error e
      | .ok command =>
        match getBoolD sc "enabled" true with
        | .error e => .error e
        | .ok enabled =>
          let pair :=
            if command.isEmpty then (command, ([] : List String))
            else
              match pySplit command with
              | [] => (command, [])
              | c :: rest => (c, rest)
          mkServer name pair.1 pair.2 [] (cursorTypeFromField sc) none enabled none
  | _ => .error .pyError

/-- The part of `CursorHandler.load_servers` that reads the claude-style
`mcpServers` mapping. -/
def cursorLoadClaudePart (fields : List (String × JVal)) : Except ErrKind (List MCPServer) :=
  match jlookup fields "mcpServers" with
  | none => .ok []
  | some (.jobj m) => loadEntriesWith parseEntryCursorClaude m
  | some _ => .error .pyError

/-- The part of `CursorHandler.load_servers` that reads the native
`servers` list. -/
def cursorLoadNativePart (fields : List (String × JVal)) : Except ErrKind (List MCPServer) :=
  match jlookup fields "servers" with
  | none => .ok []
  | some (.jarr l) => loadListWith parseEntryCursorNative l
  | some _ => .error .pyError

/-- Body of `CursorHandler.load_servers` on a parsed object: in the `both`
conflict state the union of the two sub-formats is returned. -/
def cursorLoadFields (fields : List (String × JVal)) : Except ErrKind (List MCPServer) :=
  match detectConfigFormat fields with
  | .fmtBoth =>
    match cursorLoadClaudePart fields with
    | .error e => .error e
    | .ok a =>
      match cursorLoadNativePart fields with
      | .error e => .error e
      | .ok b => .ok (a ++ b)
  | .fmtClaude => cursorLoadClaudePart fields
  | .fmtCursor => cursorLoadNativePart fields
  | .fmtNone => .ok []

/-- `CursorHandler.load_servers`. -/
def cursorLoad (f : PFile) : Except ErrKind (List MCPServer) :=
  match f with
  | .missing => .ok []
  | .invalid => .error .clientHandlerError
  | .content (.jobj fields) => cursorLoadFields fields
  | .content _ => .error .pyError

/-- Per-server object written by `CursorHandler._save_claude_format`
(a `disabled: true` flag records a disabled server). -/
def serverToCursorClaude (s : MCPServer) : JVal :=
  .jobj ([("command", .jstr s.command),
          ("args", .jarr (s.args.map .jstr)),
          ("env", .jobj (s.env.map (fun p => (p.1, .jstr p.2))))]
    ++ optTypeEntry s.server_type
    ++ optUrlEntry s.url "url"
    ++ (if s.enabled then [] else [("disabled", .jbool true)]))

/-- Cursor native `type` string for a transport. -/
def cursorTypeStr : MCPServerType → String
  | .stdio => "command"
  | .sse => "sse"
  | .http => "http"

/-- Per-server object written by `CursorHandler._save_cursor_format`:
command and args are joined into one space-separated string; `env`, `url`
and `description` have no representation. -/
def serverToCursorNative (s : MCPServer) : JVal :=
  .jobj [("name", .jstr s.name),
         ("type", .jstr (cursorTypeStr s.server_type)),
         ("command", .jstr (if s.args.isEmpty then s.command
                            else s.command ++ " " ++ String.intercalate " " s.args)),
         ("enabled", .jbool s.enabled)]

/-- The body of `CursorHandler.save_servers` after the existing content and
format were determined: a `both` conflict collapses to the claude format,
deleting the `servers` key entirely. -/
def cursorSaveGo (fields : List (String × JVal)) (fmt : CursorFormat)
    (servers : List MCPServer) : JVal :=
  match fmt with
  | .fmtBoth =>
    .jobj (jset (jdel fields "servers") "mcpServers"
      (.jobj (buildObjWith (fun s => some (serverToCursorClaude s)) servers)))
  | .fmtClaude =>
    .jobj (jset fields "mcpServers"
      (.jobj (buildObjWith (fun s => some (serverToCursorClaude s)) servers)))
  | _ => .jobj (jset fields "servers" (.jarr (servers.map serverToCursorNative)))

/-- `CursorHandler.save_servers`: a fresh or corrupt file starts from
`\x7b"version": "1.0"\x7d` and uses the native format. -/
def cursorSave (f : PFile) (servers : List MCPServer) : Except ErrKind JVal :=
  match f with
  | .missing => .ok (cursorSaveGo [("version", .jstr "1.0")] .fmtCursor servers)
  | .invalid => .ok (cursorSaveGo [("version", .jstr "1.0")] .fmtCursor servers)
  | .content (.jobj fields) => .ok (cursorSaveGo fields (detectConfigFormat fields) servers)
  | .content _ => .error .pyError

/-- Python `needle in haystack` substring test, on character lists. -/
def seqContains (needle : List Char) : List Char → Bool
  | [] => needle.isEmpty
  | c :: rest => needle.isPrefixOf (c :: rest) || seqContains needle rest

/-- Python `"sse" in url` style substring test on strings. -/
def pyContains (needle hay : String) : Bool :=
  seqContains needle.data hay.data

/-- Local branch of the opencode entry parser: `command` is a single list
`[exe, ...args]`; `environment` maps to `env`. -/
def parseOpenCodeLocal (name : String) (sc : List (String × JVal)) (enabled : Bool) :
    Except ErrKind (Option MCPServer) :=
  match jlookup sc "command" with
  | none => .ok none
  | some (.jarr []) => .ok none
  | some (.jarr l) =>
    match readStrList l with
    | .error e => .error e
    | .ok [] => .ok none
    | .ok (c :: rest) =>
      match getStrMapD sc "environment" with
      | .error e => .error e
      | .ok env =>
        match mkServer name c rest env .stdio none enabled none with
        | .error e => .error e
        | .ok s => .ok (some s)
  | some v => if pyTruthy v then .error .pyError else .ok none

/-- Remote branch of the opencode entry parser. -/
def parseOpenCodeRemote (name : String) (sc : List (String × JVal)) (enabled : Bool) :
    Except ErrKind (Option MCPServer) :=
  match getStrD sc "url" "" with
  | .error e => .error e
  | .ok url =>
    if url.isEmpty then .ok none
    else
      match mkServer name "" [] []
          (if "http://".data.isPrefixOf url.data && !pyContains "sse" url
           then .http else .sse)
          (some url) enabled none with
      | .error e => .error e
      | .ok s => .ok (some s)

/-- One entry of the `mcp` mapping in `OpenCodeHandler.load_servers`.
`ok none` models a `continue` (entry silently skipped): non-dict entries,
unknown `type` tags, local entries with a falsy `command` list and remote
entries with a falsy `url` are all skipped, not errors. -/
def parseEntryOpenCode (name : String) (v : JVal) : Except ErrKind (Option MCPServer) :=
  match v with
  | .jobj sc =>
    match getBoolD sc "enabled" true with
    | .error e => .error e
    | .ok enabled =>
      match jlookup sc "type" with
      | none => parseOpenCodeLocal name sc enabled
      | some (.jstr "local") => parseOpenCodeLocal name sc enabled
      | some (.jstr "remote") => parseOpenCodeRemote name sc enabled
      | some _ => .ok none
  | _ => .ok none

/-- Loop of `OpenCodeHandler.load_servers` over the `mcp` mapping, with
skipped entries contributing nothing. -/
def loadEntriesOpenCode : List (String × JVal) → Except ErrKind (List MCPServer)
  | [] => .ok []
  | (k, v) :: rest =>
    match parseEntryOpenCode k v with
    | .error e => .error e
    | .ok none => loadEntriesOpenCode rest
    | .ok (some s) =>
      match loadEntriesOpenCode rest with
      | .error e => .error e
      | .ok ss => .ok (s :: ss)

/-- Per-server object written by `OpenCodeHandler.save_servers`, or `none`
when the record has no encoding (stdio with an empty command, or sse/http
with a falsy URL): such records are silently skipped. -/
def serverToOpenCode (s : MCPServer) : Option JVal :=
  match s.server_type with
  | .stdio =>
    if s.command.isEmpty then none
    else some (.jobj ([("type", .jstr "local"),
                       ("command", .jarr ((s.command :: s.args).map .jstr)),
                       ("enabled", .jbool s.enabled)]
      ++ (if s.env.isEmpty then []
          else [("environment", .jobj (s.env.map (fun p => (p.1, .jstr p.2))))])))
  | _ =>
    match s.url with
    | none => none
    | some u =>
      if u.isEmpty then none
      else some (.jobj [("type", .jstr "remote"),
                        ("url", .jstr u),
                        ("enabled", .jbool s.enabled)])

/-- Body of `OpenCodeHandler.load_servers` on a parsed object. -/
def opencodeLoadFields (fields : List (String × JVal)) : Except ErrKind (List MCPServer) :=
  match jlookup fields "mcp" with
  | none => .ok []
  | some (.jobj m) => loadEntriesOpenCode m
  | some _ => .error .pyError

/-- `OpenCodeHandler.load_servers`. -/
def opencodeLoad (f : PFile) : Except ErrKind (List MCPServer) :=
  match f with
  | .missing => .ok []
  | .invalid => .error .clientHandlerError
  | .content (.jobj fields) => opencodeLoadFields fields
  | .content _ => .error .pyError

/-- Body of `OpenCodeHandler.save_servers` on a parsed object: adds a
`$schema` key when absent, then replaces only the `mcp` mapping. -/
def opencodeSaveFields (fields : List (String × JVal)) (servers : List MCPServer) : JVal :=
  let base :=
    if (jlookup fields "$schema").isNone
    then jset fields "$schema" (.jstr "https://opencode.ai/config.json")
    else fields
  .jobj (jset base "mcp" (.jobj (buildObjWith serverToOpenCode servers)))

/-- `OpenCodeHandler.save_servers`. -/
def opencodeSave (f : PFile) (servers : List MCPServer) : Except ErrKind JVal :=
  match f with
  | .missing => .ok (opencodeSaveFields [] servers)
  | .invalid => .ok (opencodeSaveFields [] servers)
  | .content (.jobj fields) => .ok (opencodeSaveFields fields servers)
  | .content _ => .error .pyError

/-- A client adapter: its `load_servers` and `save_servers`.  The
`add_server`, `remove_server` and `get_server` bodies are textually
identical in all five handler classes and are embedded once below. -/
structure Handler where
  load : PFile → Except ErrKind (List MCPServer)
  save : PFile → List MCPServer → Except ErrKind JVal

/-- Shared `add_server` body: load, drop any same-named record, append,
save. -/
def Handler.addServer (h : Handler) (f : PFile) (server : MCPServer) : Except ErrKind PFile :=
  match h.load f with
  | .error e => .error e
  | .ok servers =>
    match h.save f ((servers.filter (fun s => !(s.name == server.name))) ++ [server]) with
    | .error e => .error e
    | .ok v => .ok (.content v)

/-- Shared `remove_server` body: save only if the count changed; return
whether a removal occurred.  On `false` no write happens, so the file is
returned unchanged. -/
def Handler.removeServer (h : Handler) (f : PFile) (name : String) :
    Except ErrKind (Bool × PFile) :=
  match h.load f with
  | .error e => .error e
  | .ok servers =>
    let remaining := servers.filter (fun s => !(s.name == name))
    if remaining.length < servers.length then
      match h.save f remaining with
      | .error e => .error e
      | .ok v => .ok (true, .content v)
    else .ok (false, f)

/-- Shared `get_server` body: linear search of the loaded records. -/
def Handler.getServer (h : Handler) (f : PFile) (name : String) :
    Except ErrKind (Option MCPServer) :=
  match h.load f with
  | .error e => .error e
  | .ok servers => .ok (servers.find? (fun s => s.name == name))

/-- The claude-code adapter (kind A). -/
def claudeCodeHandler : Handler := ⟨claudeCodeLoad, claudeCodeSave⟩

/-- The cursor adapter (kind B). -/
def cursorHandler : Handler := ⟨cursorLoad, cursorSave⟩

/-- The vscode adapter (kind C). -/
def vscodeHandler : Handler := ⟨vscodeLoad, vscodeSave⟩

/-- The gemini-cli adapter (kind D). -/
def geminiHandler : Handler := ⟨geminiLoad, geminiSave⟩

/-- The opencode adapter (kind E). -/
def opencodeHandler : Handler := ⟨opencodeLoad, opencodeSave⟩

/-- `ClaudeCodeHandler.restore_config` as a transformer of the live file:
a missing backup raises `ClientHandlerError`; a backup that is not valid
JSON raises `ConfigurationError`; both checks happen before the copy, so on
error the live file is unchanged.  A valid backup is byte-copied over the
live path. -/
def claudeCodeRestore (live backup : PFile) : PFile × Option ErrKind :=
  match backup with
  | .missing => (live, some .clientHandlerError)
  | .invalid => (live, some .configurationError)
  | .content _ => (backup, none)

/-- `CursorHandler.restore_config` (same logic as claude-code). -/
def cursorRestore (live backup : PFile) : PFile × Option ErrKind :=
  match backup with
  | .missing => (live, some .clientHandlerError)
  | .invalid => (live, some .configurationError)
  | .content _ => (backup, none)

/-- `VSCodeHandler.restore_config` (same logic as claude-code). -/
def vscodeRestore (live backup : PFile) : PFile × Option ErrKind :=
  match backup with
  | .missing => (live, some .clientHandlerError)
  | .invalid => (live, some .configurationError)
  | .content _ => (backup, none)

/-- `OpenCodeHandler.restore_config` (same logic as claude-code). -/
def opencodeRestore (live backup : PFile) : PFile × Option ErrKind :=
  match backup with
  | .missing => (live, some .clientHandlerError)
  | .invalid => (live, some .configurationError)
  | .content _ => (backup, none)

/-- `GeminiCLIHandler.restore_config`: unlike the other handlers, an
invalid-JSON backup raises `ClientHandlerError`, not `ConfigurationError`. -/
def geminiRestore (live backup : PFile) : PFile × Option ErrKind :=
  match backup with
  | .missing => (live, some .clientHandlerError)
  | .invalid => (live, some .clientHandlerError)
  | .content _ => (backup, none)

/-- The `ClientType` enumeration of `core/models.py`: exactly four members.
`gemini-cli` and `opencode` are not members even though their handler
implementations exist. -/
inductive ClientType where
  | claudeCode
  | claudeDesktop
  | cursor
  | vscode
  deriving DecidableEq, Repr

/-- String value of a client kind, as in the Python `str`-enum. -/
def ClientType.value : ClientType → String
  | .claudeCode => "claude-code"
  | .claudeDesktop => "claude-desktop"
  | .cursor => "cursor"
  | .vscode => "vscode"

/-- Constructing `ClientType(s)` from a string: `ValueError` (here `none`)
for any string that is not one of the four member values. -/
def clientTypeOfString (s : String) : Option ClientType :=
  if s == "claude-code" then some .claudeCode
  else if s == "claude-desktop" then some .claudeDesktop
  else if s == "cursor" then some .cursor
  else if s == "vscode" then some .vscode
  else none

/-- Tags for the handler classes named in `clients/__init__.py`. -/
inductive HandlerClass where
  | claudeCodeCls
  | claudeDesktopCls
  | cursorCls
  | vscodeCls
  deriving DecidableEq, Repr

/-- The `CLIENT_HANDLERS` registry dictionary of `clients/__init__.py`. -/
def CLIENT_HANDLERS : List (ClientType × HandlerClass) :=
  [(.claudeCode, .claudeCodeCls),
   (.claudeDesktop, .claudeDesktopCls),
   (.cursor, .cursorCls),
   (.vscode, .vscodeCls)]

/-- `get_client_handler`: dictionary lookup, `ValueError` when the kind is
not in `CLIENT_HANDLERS`. -/
def getClientHandler (ct : ClientType) : Except ErrKind HandlerClass :=
  match CLIENT_HANDLERS.lookup ct with
  | some h => .ok h
  | none => .error .valueError

/-- The registry's discovery loop `for client_type in ClientType` iterates
exactly the enumeration members, in declaration order
(`ClientRegistry._discover_clients`). -/
def registryEnumeration : List ClientType :=
  [.claudeCode, .claudeDesktop, .cursor, .vscode]

/-- Sample cursor config in the `both` conflict state: one server in each
sub-format. -/
def sampleBothFile : List (String × JVal) :=
  [("mcpServers", .jobj [("a", .jobj [("command", .jstr "x")])]),
   ("servers", .jarr [.jobj [("name", .jstr "b"), ("command", .jstr "y")]])]

/-- Sample cursor config in the `both` conflict state where both sub-formats
define a server with the same name `dup`. -/
def sampleDupFile : List (String × JVal) :=
  [("mcpServers", .jobj [("dup", .jobj [("command", .jstr "a")])]),
   ("servers", .jarr [.jobj [("name", .jstr "dup"), ("command", .jstr "b")]])]

/-- A valid stdio server record used as concrete test input. -/
def stdioSample : MCPServer :=
  ⟨"srv", "npx", ["-y", "pkg"], [("K", "V")], .stdio, none, true, none⟩

/-- A valid sse server record (remote, empty command) used as concrete test
input. -/
def sseSample : MCPServer :=
  ⟨"rsrv", "", [], [], .sse, some "https://h/sse", true, none⟩

/-- Normalization a claude-code save applies to a URL: a falsy URL is not
written, so it reloads as `None`. -/
def pyNormUrl : Option String → Option String
  | some u => if u.isEmpty then none else some u
  | none => none

/-- The fields of a record that survive a claude-code save/load round trip:
everything except `enabled` (always true on load), `description` (not
stored) and a falsy URL. -/
def normClaude (s : MCPServer) : MCPServer :=
  { s with url := pyNormUrl s.url, enabled := true, description := none }

/-- Round-trip normalization of the vscode adapter: like claude-code, but
a reloaded record gets the loader description default. -/
def normVSCode (s : MCPServer) : MCPServer :=
  { s with url := pyNormUrl s.url, enabled := true, description := some "VS Code MCP Server" }

/-- Round-trip normalization of the gemini-cli adapter: `enabled` survives
through `trust`; `description` is not stored. -/
def normGemini (s : MCPServer) : MCPServer :=
  { s with url := pyNormUrl s.url, description := none }

theorem jlookup_jset_self (l : List (String × JVal)) (k : String) (v : JVal) :
    jlookup (jset l k v) k = some v := by
  induction l with
  | nil => simp [jset, jlookup]
  | cons e rest ih =>
    obtain ⟨k', v'⟩ := e
    by_cases h : k' = k
    · subst h; simp [jset, jlookup]
    · simp [jset, jlookup, h, ih]

theorem jlookup_jset_ne (l : List (String × JVal)) (k k' : String) (v : JVal)
    (h : k' ≠ k) : jlookup (jset l k' v) k = jlookup l k := by
  induction l with
  | nil => simp [jset, jlookup, h]
  | cons e rest ih =>
    obtain ⟨a, b⟩ := e
    by_cases ha : a = k'
    · subst ha; simp [jset, jlookup, h]
    · simp [jset, jlookup, ha, ih]

theorem jlookup_jdel_self (l : List (String × JVal)) (k : String) :
    jlookup (jdel l k) k = none := by
  induction l with
  | nil => rfl
  | cons e rest ih =>
    obtain ⟨a, b⟩ := e
    by_cases ha : a = k
    · subst ha; simpa [jdel] using ih
    · simpa [jdel, ha, jlookup] using ih

theorem jlookup_jdel_ne (l : List (String × JVal)) (k k' : String)
    (h : k' ≠ k) : jlookup (jdel l k') k = jlookup l k := by
  induction l with
  | nil => rfl
  | cons e rest ih =>
    obtain ⟨a, b⟩ := e
    by_cases ha : a = k'
    · subst ha; simpa [jdel, jlookup, h, Ne.symm h] using ih
    · by_cases hak : a = k
      · subst hak; simp [jdel, ha, jlookup]
      · simpa [jdel, ha, hak, jlookup] using ih

theorem jlookup_eq_none_of_forall (l : List (String × JVal)) (k : String)
    (h : ∀ e ∈ l, e.1 ≠ k) : jlookup l k = none := by
  induction l with
  | nil => rfl
  | cons e rest ih =>
    obtain ⟨a, b⟩ := e
    have ha : a ≠ k := h (a, b) (by simp)
    simp [jlookup, ha]
    exact ih (fun e he => h e (by simp [he]))

theorem jset_append_of_lookup_none (l : List (String × JVal)) (k : String) (v : JVal)
    (h : jlookup l k = none) : jset l k v = l ++ [(k, v)] := by
  induction l with
  | nil => rfl
  | cons e rest ih =>
    obtain ⟨a, b⟩ := e
    by_cases ha : a = k
    · subst ha; simp [jlookup] at h
    · simp [jlookup, ha] at h
      simp [jset, ha, ih h]

theorem mem_jset (l : List (String × JVal)) (k : String) (v : JVal)
    (e : String × JVal) (he : e ∈ jset l k v) : e ∈ l ∨ e = (k, v) := by
  induction l with
  | nil => simp [jset] at he; simp [he]
  | cons a rest ih =>
    obtain ⟨a1, a2⟩ := a
    by_cases ha : a1 = k
    · subst ha
      simp [jset] at he
      rcases he with h | h
      · right; simp [h]
      · left; simp [h]
    · simp [jset, ha] at he
      rcases he with h | h
      · left; simp [h]
      · rcases ih h with h' | h'
        · left; simp [h']
        · right; exact h'

theorem filter_length_partition {α : Type} (p : α → Bool) (l : List α) :
    (l.filter p).length + (l.filter (fun a => !p a)).length = l.length := by
  induction l with
  | nil => rfl
  | cons a rest ih =>
    cases h : p a
    · simp only [List.filter_cons, h, Bool.not_false, Bool.false_eq_true, if_true, if_false,
        List.length_cons]
      omega
    · simp only [List.filter_cons, h, Bool.not_true, Bool.false_eq_true, if_true, if_false,
        List.length_cons]
      omega

theorem filter_not_length_lt_iff {α : Type} (p : α → Bool) (l : List α) :
    (l.filter (fun a => !p a)).length < l.length ↔ l.any p = true := by
  induction l with
  | nil => simp
  | cons a rest ih =>
    cases h : p a
    · simp [List.filter_cons, h, Nat.succ_lt_succ_iff, ih]
    · simp [List.filter_cons, h, Nat.lt_succ_iff, List.length_filter_le]

theorem loadEntriesWith_length (p : String → JVal → Except ErrKind MCPServer)
    (l : List (String × JVal)) (out : List MCPServer)
    (h : loadEntriesWith p l = .ok out) : out.length = l.length := by
  induction l generalizing out with
  | nil => simp [loadEntriesWith] at h; simp [← h]
  | cons e rest ih =>
    obtain ⟨k, v⟩ := e
    simp only [loadEntriesWith] at h
    cases hp : p k v with
    | error e => rw [hp] at h; exact absurd h (by simp)
    | ok s =>
      rw [hp] at h
      cases hr : loadEntriesWith p rest with
      | error e => rw [hr] at h; exact absurd h (by simp)
      | ok ss =>
        rw [hr] at h
        cases h
        simp [ih ss hr]

theorem loadListWith_length (p : JVal → Except ErrKind MCPServer)
    (l : List JVal) (out : List MCPServer)
    (h : loadListWith p l = .ok out) : out.length = l.length := by
  induction l generalizing out with
  | nil => simp [loadListWith] at h; simp [← h]
  | cons v rest ih =>
    simp only [loadListWith] at h
    cases hp : p v with
    | error e => rw [hp] at h; exact absurd h (by simp)
    | ok s =>
      rw [hp] at h
      cases hr : loadListWith p rest with
      | error e => rw [hr] at h; exact absurd h (by simp)
      | ok ss =>
        rw [hr] at h
        cases h
        simp [ih ss hr]

theorem loadEntriesWith_append (p : String → JVal → Except ErrKind MCPServer)
    (a b : List (String × JVal)) (xa xb : List MCPServer)
    (ha : loadEntriesWith p a = .ok xa) (hb : loadEntriesWith p b = .ok xb) :
    loadEntriesWith p (a ++ b) = .ok (xa ++ xb) := by
  induction a generalizing xa with
  | nil => simp [loadEntriesWith] at ha; simp [← ha, hb]
  | cons e rest ih =>
    obtain ⟨k, v⟩ := e
    simp only [loadEntriesWith] at ha ⊢
    cases hp : p k v with
    | error e => rw [hp] at ha; exact absurd ha (by simp)
    | ok s =>
      rw [hp] at ha
      cases hr : loadEntriesWith p rest with
      | error e => rw [hr] at ha; exact absurd ha (by simp)
      | ok ss =>
        rw [hr] at ha
        cases ha
        rw [List.append_eq, ih ss hr]
        rfl

theorem loadEntriesWith_ok_of (p : String → JVal → Except ErrKind MCPServer)
    (Q : MCPServer → Prop) (l : List (String × JVal))
    (h : ∀ e ∈ l, ∃ m, p e.1 e.2 = .ok m ∧ Q m) :
    ∃ out, loadEntriesWith p l = .ok out ∧ ∀ m ∈ out, Q m := by
  induction l with
  | nil => exact ⟨[], rfl, by simp⟩
  | cons e rest ih =>
    obtain ⟨k, v⟩ := e
    obtain ⟨m, hm, hq⟩ := h (k, v) (by simp)
    obtain ⟨out, hout, hqs⟩ := ih (fun e he => h e (by simp [he]))
    refine ⟨m :: out, ?_, ?_⟩
    · simp only [loadEntriesWith, hm, hout]
    · intro x hx
      rcases List.mem_cons.mp hx with h1 | h1
      · subst h1; exact hq
      · exact hqs x h1

theorem loadEntriesOpenCode_ok_of (Q : MCPServer → Prop) (l : List (String × JVal))
    (h : ∀ e ∈ l, ∃ om, parseEntryOpenCode e.1 e.2 = .ok om ∧ ∀ m, om = some m → Q m) :
    ∃ out, loadEntriesOpenCode l = .ok out ∧ ∀ m ∈ out, Q m := by
  induction l with
  | nil => exact ⟨[], rfl, by simp⟩
  | cons e rest ih =>
    obtain ⟨k, v⟩ := e
    obtain ⟨om, hm, hq⟩ := h (k, v) (by simp)
    obtain ⟨out, hout, hqs⟩ := ih (fun e he => h e (by simp [he]))
    cases om with
    | none => exact ⟨out, by simp only [loadEntriesOpenCode, hm, hout], hqs⟩
    | some m =>
      refine ⟨m :: out, by simp only [loadEntriesOpenCode, hm, hout], ?_⟩
      intro x hx
      rcases List.mem_cons.mp hx with h1 | h1
      · rw [h1]; exact hq m rfl
      · exact hqs x h1

theorem foldl_buildStep_prop (enc : MCPServer → Option JVal) (P : String × JVal → Prop) :
    ∀ (ss : List MCPServer) (acc : List (String × JVal)),
      (∀ e ∈ acc, P e) →
      (∀ s ∈ ss, ∀ v, enc s = some v → P (s.name, v)) →
      ∀ e ∈ ss.foldl (buildStep enc) acc, P e := by
  intro ss
  induction ss with
  | nil => intro acc hacc _ e he; exact hacc e he
  | cons s rest ih =>
    intro acc hacc hss e he
    simp only [List.foldl_cons] at he
    refine ih (buildStep enc acc s) ?_ (fun t ht v hv => hss t (by simp [ht]) v hv) e he
    intro x hx
    unfold buildStep at hx
    cases hv : enc s with
    | none => rw [hv] at hx; exact hacc x hx
    | some v =>
      rw [hv] at hx
      rcases mem_jset acc s.name v x hx with h1 | h1
      · exact hacc x h1
      · subst h1; exact hss s (by simp) v hv

theorem buildObjWith_prop (enc : MCPServer → Option JVal) (P : String × JVal → Prop)
    (ss : List MCPServer)
    (hss : ∀ s ∈ ss, ∀ v, enc s = some v → P (s.name, v)) :
    ∀ e ∈ buildObjWith enc ss, P e :=
  foldl_buildStep_prop enc P ss [] (by simp) hss

theorem buildObjWith_append_single (enc : MCPServer → Option JVal)
    (ss : List MCPServer) (r : MCPServer) :
    buildObjWith enc (ss ++ [r]) = buildStep enc (buildObjWith enc ss) r := by
  simp [buildObjWith, List.foldl_append]

theorem allowed_not_ws (c : Char) (h : allowedNameChar c = true) : c.isWhitespace = false := by
  cases hw : c.isWhitespace
  · rfl
  · exfalso
    have hd : ((c = ' ' ∨ c = '\t') ∨ c = '\r') ∨ c = '\n' := by
      simpa [Char.isWhitespace] using hw
    rcases hd with ((h1 | h1) | h1) | h1 <;> (subst h1; exact absurd h (by decide))

theorem dropWhile_eq_self_of_not {α : Type} (p : α → Bool) (l : List α)
    (h : ∀ c ∈ l, p c = false) : l.dropWhile p = l := by
  cases l with
  | nil => rfl
  | cons a rest => simp [List.dropWhile_cons, h a (by simp)]

theorem pyStripL_of_allowed (l : List Char) (h : ∀ c ∈ l, allowedNameChar c = true) :
    pyStripL l = l := by
  unfold pyStripL
  rw [dropWhile_eq_self_of_not _ _ (fun c hc => allowed_not_ws c (h c hc))]
  rw [dropWhile_eq_self_of_not _ _ (fun c hc => allowed_not_ws c (h c (List.mem_reverse.mp hc)))]
  exact List.reverse_reverse l


theorem validateName_ok_eq (n m : String) (h : validateName n = .ok m) : m = n := by
  unfold validateName at h
  cases h1 : (n.data.isEmpty || (pyStripL n.data).isEmpty) with
  | true => rw [h1] at h; simp at h
  | false =>
    rw [h1] at h
    cases h2 : n.data.all allowedNameChar with
    | false => rw [h2] at h; simp at h
    | true =>
      rw [h2] at h
      simp only [Bool.false_eq_true, if_false, if_true] at h
      have hm : pyStrip n = m := by simpa using h
      rw [← hm]
      unfold pyStrip
      rw [pyStripL_of_allowed n.data (fun c hc => List.all_eq_true.mp h2 c hc)]

theorem validateName_ok_self (n m : String) (h : validateName n = .ok m) :
    validateName m = .ok m := by
  have he := validateName_ok_eq n m h
  rw [he] at h ⊢
  exact h

theorem validateName_ok_of (name : String) (hne : name.data ≠ [])
    (hall : name.data.all allowedNameChar = true) : validateName name = .ok name := by
  have hs : pyStripL name.data = name.data :=
    pyStripL_of_allowed name.data (fun c hc => List.all_eq_true.mp hall c hc)
  have hne' : name.data.isEmpty = false := by
    cases hd : name.data
    · exact absurd hd hne
    · rfl
  unfold validateName
  rw [hs, hne', hall]
  simp only [Bool.or_self, Bool.false_eq_true, if_false, if_true]
  unfold pyStrip
  rw [hs]

theorem mkServer_ok_of (name command : String) (args : List String)
    (env : List (String × String)) (st : MCPServerType) (url : Option String)
    (enabled : Bool) (desc : Option String)
    (hv : validateName name = .ok name)
    (hurl : stypeNeedsUrl st = true → pyTruthyOptStr url = true) :
    mkServer name command args env st url enabled desc
      = .ok ⟨name, command, args, env, st, url, enabled, desc⟩ := by
  unfold mkServer
  rw [hv]
  cases hst : stypeNeedsUrl st
  · simp only [hst, Bool.false_and, Bool.false_eq_true, if_false]
  · simp only [hst, hurl hst, Bool.not_true, Bool.and_false, Bool.false_eq_true, if_false]

theorem mkServer_ok_wf (nm c : String) (a : List String) (e : List (String × String))
    (st : MCPServerType) (u : Option String) (en : Bool) (d : Option String) (s : MCPServer)
    (h : mkServer nm c a e st u en d = .ok s) : wfServer s = true := by
  unfold mkServer at h
  cases hv : validateName nm with
  | error e0 => rw [hv] at h; exact absurd h (by simp)
  | ok n0 =>
    rw [hv] at h
    cases hcond : (stypeNeedsUrl st && !pyTruthyOptStr u) with
    | true => rw [hcond] at h; simp at h
    | false =>
      rw [hcond] at h
      simp only [Bool.false_eq_true, if_false] at h
      have hs : (⟨n0, c, a, e, st, u, en, d⟩ : MCPServer) = s := by simpa using h
      subst hs
      have h1 : validateName n0 = .ok n0 := validateName_ok_self nm n0 hv
      unfold wfServer
      simp only [h1, beq_self_eq_true, Bool.true_and]
      cases hst : stypeNeedsUrl st
      · rfl
      · rw [hst] at hcond
        simp only [Bool.true_and] at hcond
        simpa using hcond

theorem wfServer_name (s : MCPServer) (h : wfServer s = true) :
    validateName s.name = .ok s.name := by
  unfold wfServer at h
  cases hv : validateName s.name with
  | error e => rw [hv] at h; simp at h
  | ok n =>
    rw [hv] at h
    simp only [Bool.and_eq_true, beq_iff_eq] at h
    rw [← h.1]

theorem wfServer_url (s : MCPServer) (h : wfServer s = true)
    (hst : stypeNeedsUrl s.server_type = true) : pyTruthyOptStr s.url = true := by
  unfold wfServer at h
  cases hv : validateName s.name with
  | error e => rw [hv] at h; simp at h
  | ok n =>
    rw [hv] at h
    simp only [Bool.and_eq_true, beq_iff_eq, hst, Bool.not_true, Bool.false_or] at h
    exact h.2

/-- C6: construction-time validation of a server record rejects every record
with sse transport and no URL, every record whose name contains a space or a
slash, and every record with an empty name; and it accepts any record whose
name is non-empty and drawn from letters, digits, hyphen, underscore,
provided a truthy URL is present whenever the transport is sse or http. -/
theorem c6_validation_rules :
    (∀ (name command : String) (args : List String) (env : List (String × String))
       (enabled : Bool) (desc : Option String),
       (mkServer name command args env .sse none enabled desc).isOk = false)
    ∧ (∀ (name command : String) (args : List String) (env : List (String × String))
         (st : MCPServerType) (url : Option String) (enabled : Bool) (desc : Option String),
         (name.data.any fun ch => ch == ' ' || ch == '/') = true →
         (mkServer name command args env st url enabled desc).isOk = false)
    ∧ (∀ (command : String) (args : List String) (env : List (String × String))
         (st : MCPServerType) (url : Option String) (enabled : Bool) (desc : Option String),
         (mkServer "" command args env st url enabled desc).isOk = false)
    ∧ (∀ (name command : String) (args : List String) (env : List (String × String))
         (st : MCPServerType) (url : Option String) (enabled : Bool) (desc : Option String),
         name.data ≠ [] →
         name.data.all allowedNameChar = true →
         (stypeNeedsUrl st = true → pyTruthyOptStr url = true) →
         (mkServer name command args env st url enabled desc).isOk = true) := by
  refine ⟨?_, ?_, ?_, ?_⟩
  · intro name command args env enabled desc
    unfold mkServer
    cases hv : validateName name with
    | error e => rfl
    | ok n => rfl
  · intro name command args env st url enabled desc hbad
    obtain ⟨ch, hmem, hch⟩ := List.any_eq_true.mp hbad
    have hch' : ch = ' ' ∨ ch = '/' := by simpa using hch
    have hnall : name.data.all allowedNameChar = false := by
      cases hall : name.data.all allowedNameChar
      · rfl
      · exfalso
        have := List.all_eq_true.mp hall ch hmem
        rcases hch' with h1 | h1 <;> (subst h1; exact absurd this (by decide))
    unfold mkServer
    cases hv : validateName name with
    | error e => rfl
    | ok n0 =>
      exfalso
      unfold validateName at hv
      cases h1 : (name.data.isEmpty || (pyStripL name.data).isEmpty) with
      | true => rw [h1] at hv; simp at hv
      | false => rw [h1, hnall] at hv; simp at hv
  · intro command args env st url enabled desc
    rfl
  · intro name command args env st url enabled desc hne hall hurl
    rw [mkServer_ok_of name command args env st url enabled desc
      (validateName_ok_of name hne hall) hurl]
    rfl

/-- Witness for C6 at concrete inputs: "a b" has a space and is rejected;
"srv" with an sse URL satisfies the acceptance hypotheses and is accepted. -/
theorem c6_validation_rules_witness :
    (("a b".data.any fun ch => ch == ' ' || ch == '/') = true
      ∧ (mkServer "a b" "npx" [] [] .stdio none true none).isOk = false)
    ∧ ("srv".data ≠ [] ∧ "srv".data.all allowedNameChar = true
      ∧ (mkServer "srv" "" [] [] .sse (some "https://h/sse") true none).isOk = true) :=
  ⟨⟨by decide, c6_validation_rules.2.1 "a b" "npx" [] [] .stdio none true none (by decide)⟩,
   ⟨by decide, by decide,
    c6_validation_rules.2.2.2 "srv" "" [] [] .sse (some "https://h/sse") true none
      (by decide) (by decide) (by decide)⟩⟩

/-- C7 counterexample: a record with an empty command and no URL (stdio
transport) passes construction-time validation, contradicting the claim that
validation must fail for it. -/
theorem c7_counterexample :
    mkServer "a" "" [] [] .stdio none true none
      = .ok ⟨"a", "", [], [], .stdio, none, true, none⟩ := by
  rfl

/-- C7 (amended): construction-time validation places no constraint on
`command`: a record with an empty command string and no URL is accepted
whenever its name is valid and the transport is stdio. -/
theorem c7_empty_command_accepted :
    ∀ (name : String) (args : List String) (env : List (String × String))
      (enabled : Bool) (desc : Option String),
      name.data ≠ [] →
      name.data.all allowedNameChar = true →
      (mkServer name "" args env .stdio none enabled desc).isOk = true := by
  intro name args env enabled desc hne hall
  exact c6_validation_rules.2.2.2 name "" args env .stdio none enabled desc hne hall (by decide)

/-- Witness for the amended C7 at a concrete input. -/
theorem c7_empty_command_accepted_witness :
    "a".data ≠ [] ∧ "a".data.all allowedNameChar = true
      ∧ (mkServer "a" "" [] [] .stdio none true none).isOk = true :=
  ⟨by decide, by decide, c7_empty_command_accepted "a" [] [] true none (by decide) (by decide)⟩

/-- C5 (amended): on every adapter, `restore_config` validates the backup
before touching the live file: a missing backup raises `ClientHandlerError`
and an unparseable backup is rejected before the overwrite — with
`ConfigurationError` for the claude-code, cursor, vscode and opencode
handlers but `ClientHandlerError` for the gemini-cli handler — and in every
failure case the live configuration is left unchanged. -/
theorem c5_restore_validation :
    ∀ live : PFile,
      claudeCodeRestore live .invalid = (live, some .configurationError)
      ∧ cursorRestore live .invalid = (live, some .configurationError)
      ∧ vscodeRestore live .invalid = (live, some .configurationError)
      ∧ opencodeRestore live .invalid = (live, some .configurationError)
      ∧ geminiRestore live .invalid = (live, some .clientHandlerError)
      ∧ claudeCodeRestore live .missing = (live, some .clientHandlerError)
      ∧ cursorRestore live .missing = (live, some .clientHandlerError)
      ∧ vscodeRestore live .missing = (live, some .clientHandlerError)
      ∧ opencodeRestore live .missing = (live, some .clientHandlerError)
      ∧ geminiRestore live .missing = (live, some .clientHandlerError) :=
  fun _ => ⟨rfl, rfl, rfl, rfl, rfl, rfl, rfl, rfl, rfl, rfl⟩

/-- C5 counterexample: the gemini-cli handler raises `ClientHandlerError`,
not `ConfigurationError`, for an invalid-JSON backup, refuting the claim
that every adapter raises `ConfigurationError` there. -/
theorem c5_counterexample :
    geminiRestore (.content (.jobj [])) .invalid
        = (.content (.jobj []), some .clientHandlerError)
      ∧ ErrKind.clientHandlerError ≠ ErrKind.configurationError :=
  ⟨rfl, by decide⟩

/-- C8: the kind-to-handler mapping `CLIENT_HANDLERS` covers every member of
the four-member `ClientType` enumeration (so `get_client_handler` never hits
its `ValueError` branch on an enumeration member), while `gemini-cli` and
`opencode` are not constructible as `ClientType` values at all, which makes
the gemini-cli and opencode adapters unreachable through the registry's
enumeration and the handler lookup. -/
theorem c8_registry_closed :
    (∀ ct : ClientType, ∃ h, getClientHandler ct = .ok h)
    ∧ clientTypeOfString "gemini-cli" = none
    ∧ clientTypeOfString "opencode" = none
    ∧ clientTypeOfString "claude-code" = some .claudeCode
    ∧ clientTypeOfString "claude-desktop" = some .claudeDesktop
    ∧ clientTypeOfString "cursor" = some .cursor
    ∧ clientTypeOfString "vscode" = some .vscode
    ∧ registryEnumeration = [.claudeCode, .claudeDesktop, .cursor, .vscode]
    ∧ CLIENT_HANDLERS.length = 4 := by
  refine ⟨?_, rfl, rfl, rfl, rfl, rfl, rfl, rfl, rfl⟩
  intro ct
  cases ct
  · exact ⟨.claudeCodeCls, rfl⟩
  · exact ⟨.claudeDesktopCls, rfl⟩
  · exact ⟨.cursorCls, rfl⟩
  · exact ⟨.vscodeCls, rfl⟩

/-- C1: for every adapter kind, `save_servers` on a parsed config re-reads
the live file and replaces only the adapter's MCP-server storage key(s)
(`mcpServers` for claude-code and gemini-cli, `mcpServers`/`servers` for
cursor, `mcp` for vscode and opencode): every other top-level key present
before the save is still present with the same value afterwards. -/
theorem c1_save_preserves_foreign_keys :
    (∀ (fields : List (String × JVal)) (recs : List MCPServer) (k : String) (v : JVal)
       (out : JVal),
       claudeCodeSave (.content (.jobj fields)) recs = .ok out →
       k ≠ "mcpServers" → jlookup fields k = some v →
       ∃ fields', out = .jobj fields' ∧ jlookup fields' k = some v)
    ∧ (∀ (fields : List (String × JVal)) (recs : List MCPServer) (k : String) (v : JVal)
         (out : JVal),
         cursorSave (.content (.jobj fields)) recs = .ok out →
         k ≠ "mcpServers" → k ≠ "servers" → jlookup fields k = some v →
         ∃ fields', out = .jobj fields' ∧ jlookup fields' k = some v)
    ∧ (∀ (fields : List (String × JVal)) (recs : List MCPServer) (k : String) (v : JVal)
         (out : JVal),
         vscodeSave (.content (.jobj fields)) recs = .ok out →
         k ≠ "mcp" → jlookup fields k = some v →
         ∃ fields', out = .jobj fields' ∧ jlookup fields' k = some v)
    ∧ (∀ (fields : List (String × JVal)) (recs : List MCPServer) (k : String) (v : JVal)
         (out : JVal),
         geminiSave (.content (.jobj fields)) recs = .ok out →
         k ≠ "mcpServers" → jlookup fields k = some v →
         ∃ fields', out = .jobj fields' ∧ jlookup fields' k = some v)
    ∧ (∀ (fields : List (String × JVal)) (recs : List MCPServer) (k : String) (v : JVal)
         (out : JVal),
         opencodeSave (.content (.jobj fields)) recs = .ok out →
         k ≠ "mcp" → jlookup fields k = some v →
         ∃ fields', out = .jobj fields' ∧ jlookup fields' k = some v) := by
  refine ⟨?_, ?_, ?_, ?_, ?_⟩
  · intro fields recs k v out hs hk hv
    unfold claudeCodeSave at hs
    cases hs
    refine ⟨_, rfl, ?_⟩
    rw [jlookup_jset_ne _ _ _ _ (Ne.symm hk)]
    exact hv
  · intro fields recs k v out hs hk1 hk2 hv
    unfold cursorSave at hs
    cases hs
    cases hf : detectConfigFormat fields with
    | fmtBoth =>
      refine ⟨_, rfl, ?_⟩
      rw [jlookup_jset_ne _ _ _ _ (Ne.symm hk1), jlookup_jdel_ne _ _ _ (Ne.symm hk2)]
      exact hv
    | fmtClaude =>
      refine ⟨_, rfl, ?_⟩
      rw [jlookup_jset_ne _ _ _ _ (Ne.symm hk1)]
      exact hv
    | fmtCursor =>
      refine ⟨_, rfl, ?_⟩
      rw [jlookup_jset_ne _ _ _ _ (Ne.symm hk2)]
      exact hv
    | fmtNone =>
      refine ⟨_, rfl, ?_⟩
      rw [jlookup_jset_ne _ _ _ _ (Ne.symm hk2)]
      exact hv
  · intro fields recs k v out hs hk hv
    have hs2 : vscodeSaveFields fields recs = .ok out := hs
    unfold vscodeSaveFields at hs2
    cases hm : jlookup fields "mcp" with
    | none =>
      rw [hm] at hs2
      cases hs2
      refine ⟨_, rfl, ?_⟩
      rw [jlookup_jset_ne _ _ _ _ (Ne.symm hk)]
      exact hv
    | some mv =>
      rw [hm] at hs2
      cases mv with
      | jobj m =>
        cases hs2
        refine ⟨_, rfl, ?_⟩
        rw [jlookup_jset_ne _ _ _ _ (Ne.symm hk)]
        exact hv
      | jnull => exact absurd hs2 (by simp)
      | jbool b => exact absurd hs2 (by simp)
      | jnum n => exact absurd hs2 (by simp)
      | jstr s => exact absurd hs2 (by simp)
      | jarr xs => exact absurd hs2 (by simp)
  · intro fields recs k v out hs hk hv
    unfold geminiSave at hs
    cases hs
    refine ⟨_, rfl, ?_⟩
    rw [jlookup_jset_ne _ _ _ _ (Ne.symm hk)]
    exact hv
  · intro fields recs k v out hs hk hv
    unfold opencodeSave at hs
    cases hs
    refine ⟨_, rfl, ?_⟩
    show jlookup (jset _ "mcp" _) k = some v
    rw [jlookup_jset_ne _ _ _ _ (Ne.symm hk)]
    cases hsch : jlookup fields "$schema" with
    | none =>
      have hks : k ≠ "$schema" := by
        intro he
        rw [he, hsch] at hv
        exact absurd hv (by simp)
      simp only [hsch, Option.isNone_none, if_true]
      rw [jlookup_jset_ne _ _ _ _ (Ne.symm hks)]
      exact hv
    | some w =>
      simp only [hsch, Option.isNone_some, Bool.false_eq_true, if_false]
      exact hv

/-- Witness for C1: each adapter's save on a config holding a foreign key
`other` keeps that key and its value. -/
theorem c1_save_preserves_foreign_keys_witness :
    (claudeCodeSave (.content (.jobj [("other", .jnum 5)])) []
        = .ok (.jobj [("other", .jnum 5), ("mcpServers", .jobj [])])
      ∧ ∃ fields', (JVal.jobj [("other", .jnum 5), ("mcpServers", .jobj [])]) = .jobj fields'
          ∧ jlookup fields' "other" = some (.jnum 5))
    ∧ (cursorSave (.content (.jobj [("other", .jnum 5)])) []
        = .ok (.jobj [("other", .jnum 5), ("servers", .jarr [])])
      ∧ ∃ fields', (JVal.jobj [("other", .jnum 5), ("servers", .jarr [])]) = .jobj fields'
          ∧ jlookup fields' "other" = some (.jnum 5))
    ∧ (vscodeSave (.content (.jobj [("other", .jnum 5)])) []
        = .ok (.jobj [("other", .jnum 5), ("mcp", .jobj [("servers", .jobj [])])])
      ∧ ∃ fields', (JVal.jobj [("other", .jnum 5), ("mcp", .jobj [("servers", .jobj [])])])
            = .jobj fields'
          ∧ jlookup fields' "other" = some (.jnum 5))
    ∧ (geminiSave (.content (.jobj [("other", .jnum 5)])) []
        = .ok (.jobj [("other", .jnum 5), ("mcpServers", .jobj [])])
      ∧ ∃ fields', (JVal.jobj [("other", .jnum 5), ("mcpServers", .jobj [])]) = .jobj fields'
          ∧ jlookup fields' "other" = some (.jnum 5))
    ∧ (opencodeSave (.content (.jobj [("other", .jnum 5)])) []
        = .ok (.jobj [("other", .jnum 5),
                      ("$schema", .jstr "https://opencode.ai/config.json"), ("mcp", .jobj [])])
      ∧ ∃ fields', (JVal.jobj [("other", .jnum 5),
                      ("$schema", .jstr "https://opencode.ai/config.json"), ("mcp", .jobj [])])
            = .jobj fields'
          ∧ jlookup fields' "other" = some (.jnum 5)) :=
  ⟨⟨rfl, c1_save_preserves_foreign_keys.1 [("other", .jnum 5)] [] "other" (.jnum 5) _
      rfl (by decide) rfl⟩,
   ⟨rfl, c1_save_preserves_foreign_keys.2.1 [("other", .jnum 5)] [] "other" (.jnum 5) _
      rfl (by decide) (by decide) rfl⟩,
   ⟨rfl, c1_save_preserves_foreign_keys.2.2.1 [("other", .jnum 5)] [] "other" (.jnum 5) _
      rfl (by decide) rfl⟩,
   ⟨rfl, c1_save_preserves_foreign_keys.2.2.2.1 [("other", .jnum 5)] [] "other" (.jnum 5) _
      rfl (by decide) rfl⟩,
   ⟨rfl, c1_save_preserves_foreign_keys.2.2.2.2 [("other", .jnum 5)] [] "other" (.jnum 5) _
      rfl (by decide) rfl⟩⟩

/-- C2: on a kind-B (cursor) config where both the `mcpServers` mapping and
the `servers` list are populated, `load_servers` returns the union of both
sub-formats (its length is the sum of the two entry counts), and any
subsequent `save_servers` collapses to the claude-compatible sub-format:
the saved object has no `servers` key and carries the record set under
`mcpServers`. -/
theorem c2_both_format_union_and_collapse :
    ∀ (fields m : List (String × JVal)) (sl : List JVal) (L : List MCPServer),
      jlookup fields "mcpServers" = some (.jobj m) → m ≠ [] →
      jlookup fields "servers" = some (.jarr sl) → sl ≠ [] →
      cursorLoad (.content (.jobj fields)) = .ok L →
      L.length = m.length + sl.length
      ∧ ∀ recs : List MCPServer, ∃ fields',
          cursorSave (.content (.jobj fields)) recs = .ok (.jobj fields')
          ∧ jlookup fields' "servers" = none
          ∧ ∃ mv, jlookup fields' "mcpServers" = some (.jobj mv) := by
  intro fields m sl L hm hmne hsl hslne hL
  have hmE : m.isEmpty = false := by
    cases hq : m
    · exact absurd hq hmne
    · rfl
  have hslE : sl.isEmpty = false := by
    cases hq : sl
    · exact absurd hq hslne
    · rfl
  have hdet : detectConfigFormat fields = .fmtBoth := by
    unfold detectConfigFormat
    rw [hm, hsl]
    simp [pyTruthy, hmE, hslE]
  have hLF : cursorLoadFields fields = .ok L := hL
  unfold cursorLoadFields at hLF
  rw [hdet] at hLF
  cases hA : cursorLoadClaudePart fields with
  | error e => rw [hA] at hLF; exact absurd hLF (by simp)
  | ok a =>
    rw [hA] at hLF
    cases hB : cursorLoadNativePart fields with
    | error e => rw [hB] at hLF; exact absurd hLF (by simp)
    | ok b =>
      rw [hB] at hLF
      have hL' : a ++ b = L := by simpa using hLF
      have ha' : loadEntriesWith parseEntryCursorClaude m = .ok a := by
        have h2 : cursorLoadClaudePart fields = .ok a := hA
        unfold cursorLoadClaudePart at h2
        rw [hm] at h2
        exact h2
      have hb' : loadListWith parseEntryCursorNative sl = .ok b := by
        have h2 : cursorLoadNativePart fields = .ok b := hB
        unfold cursorLoadNativePart at h2
        rw [hsl] at h2
        exact h2
      constructor
      · rw [← hL', List.length_append,
          loadEntriesWith_length _ m a ha', loadListWith_length _ sl b hb']
      · intro recs
        refine ⟨jset (jdel fields "servers") "mcpServers"
          (.jobj (buildObjWith (fun s => some (serverToCursorClaude s)) recs)), ?_, ?_, ?_⟩
        · have hcs : cursorSave (.content (.jobj fields)) recs
              = .ok (cursorSaveGo fields (detectConfigFormat fields) recs) := rfl
          rw [hcs, hdet]
          rfl
        · rw [jlookup_jset_ne _ _ _ _ (by decide)]
          exact jlookup_jdel_self fields "servers"
        · exact ⟨_, jlookup_jset_self _ _ _⟩

/-- Witness for C2 at a concrete both-format config with one server in each
sub-format. -/
theorem c2_both_format_union_and_collapse_witness :
    (jlookup sampleBothFile "mcpServers"
        = some (.jobj [("a", .jobj [("command", .jstr "x")])]))
    ∧ (jlookup sampleBothFile "servers"
        = some (.jarr [.jobj [("name", .jstr "b"), ("command", .jstr "y")]]))
    ∧ cursorLoad (.content (.jobj sampleBothFile))
        = .ok [⟨"a", "x", [], [], .stdio, none, true, none⟩,
               ⟨"b", "y", [], [], .stdio, none, true, none⟩]
    ∧ ([(⟨"a", "x", [], [], .stdio, none, true, none⟩ : MCPServer),
        ⟨"b", "y", [], [], .stdio, none, true, none⟩].length
        = [("a", JVal.jobj [("command", .jstr "x")])].length
          + [JVal.jobj [("name", .jstr "b"), ("command", .jstr "y")]].length
      ∧ ∀ recs : List MCPServer, ∃ fields',
          cursorSave (.content (.jobj sampleBothFile)) recs = .ok (.jobj fields')
          ∧ jlookup fields' "servers" = none
          ∧ ∃ mv, jlookup fields' "mcpServers" = some (.jobj mv)) :=
  ⟨rfl, rfl, rfl,
   c2_both_format_union_and_collapse sampleBothFile
     [("a", .jobj [("command", .jstr "x")])]
     [.jobj [("name", .jstr "b"), ("command", .jstr "y")]]
     [⟨"a", "x", [], [], .stdio, none, true, none⟩,
      ⟨"b", "y", [], [], .stdio, none, true, none⟩]
     rfl (by simp) rfl (by simp) rfl⟩

theorem removeServer_full (h : Handler) (f : PFile) (L : List MCPServer) (n : String)
    (hl : h.load f = .ok L) :
    (∀ res, h.removeServer f n = .ok res →
      (res.1 = true ↔ L.any (fun s => s.name == n) = true) ∧ (res.1 = false → res.2 = f))
    ∧ (L.any (fun s => s.name == n) = false → h.removeServer f n = .ok (false, f))
    ∧ (L.any (fun s => s.name == n) = true →
        ∀ v, h.save f (L.filter (fun s => !(s.name == n))) = .ok v →
          h.removeServer f n = .ok (true, .content v))
    ∧ (L.filter (fun s => !(s.name == n))).length
        + (L.filter (fun s => s.name == n)).length = L.length := by
  have key := filter_not_length_lt_iff (fun s => s.name == n) L
  have hr : h.removeServer f n =
      (if (L.filter (fun s => !(s.name == n))).length < L.length then
        match h.save f (L.filter (fun s => !(s.name == n))) with
        | .error e => .error e
        | .ok v => .ok (true, .content v)
      else .ok (false, f)) := by
    unfold Handler.removeServer
    rw [hl]
  have parts := filter_length_partition (fun s => s.name == n) L
  refine ⟨?_, ?_, ?_, ?_⟩
  · intro res hres
    rw [hr] at hres
    by_cases hlt : (L.filter (fun s => !(s.name == n))).length < L.length
    · rw [if_pos hlt] at hres
      cases hsv : h.save f (L.filter (fun s => !(s.name == n))) with
      | error e => rw [hsv] at hres; exact absurd hres (by simp)
      | ok v =>
        rw [hsv] at hres
        have : ((true, PFile.content v) : Bool × PFile) = res := by simpa using hres
        rw [← this]
        constructor
        · simpa using key.mp hlt
        · intro hfalse; exact absurd hfalse (by simp)
    · rw [if_neg hlt] at hres
      have : ((false, f) : Bool × PFile) = res := by simpa using hres
      rw [← this]
      constructor
      · constructor
        · intro hx; exact absurd hx (by simp)
        · intro hx; exact absurd (key.mpr hx) hlt
      · intro _; rfl
  · intro hany
    have hnot : ¬ (L.filter (fun s => !(s.name == n))).length < L.length := by
      rw [key, hany]; simp
    rw [hr, if_neg hnot]
  · intro hany v hsv
    have hlt : (L.filter (fun s => !(s.name == n))).length < L.length := key.mpr hany
    rw [hr, if_pos hlt, hsv]
  · rw [Nat.add_comm] at parts
    exact parts

/-- C4 (amended): for every adapter kind, given the pre-call load result,
`remove_server` returns `true` exactly when a record with the requested name
was present; when it returns `false` no write happens and the file is
unchanged; when it returns `true` it writes back the loaded records minus
every record bearing that name, so the saved record count is the pre-call
count minus the number of same-named records (exactly one less whenever
loaded names are unique, but more in the kind-B both-format name-collision
state). -/
theorem c4_remove_semantics :
    (∀ (f : PFile) (L : List MCPServer) (n : String),
        claudeCodeHandler.load f = .ok L →
        (∀ res, Handler.removeServer claudeCodeHandler f n = .ok res →
          (res.1 = true ↔ L.any (fun s => s.name == n) = true) ∧ (res.1 = false → res.2 = f))
        ∧ (L.any (fun s => s.name == n) = false →
            Handler.removeServer claudeCodeHandler f n = .ok (false, f))
        ∧ (L.any (fun s => s.name == n) = true →
            ∀ v, claudeCodeHandler.save f (L.filter (fun s => !(s.name == n))) = .ok v →
              Handler.removeServer claudeCodeHandler f n = .ok (true, .content v))
        ∧ (L.filter (fun s => !(s.name == n))).length
            + (L.filter (fun s => s.name == n)).length = L.length)
    ∧ (∀ (f : PFile) (L : List MCPServer) (n : String),
        cursorHandler.load f = .ok L →
        (∀ res, Handler.removeServer cursorHandler f n = .ok res →
          (res.1 = true ↔ L.any (fun s => s.name == n) = true) ∧ (res.1 = false → res.2 = f))
        ∧ (L.any (fun s => s.name == n) = false →
            Handler.removeServer cursorHandler f n = .ok (false, f))
        ∧ (L.any (fun s => s.name == n) = true →
            ∀ v, cursorHandler.save f (L.filter (fun s => !(s.name == n))) = .ok v →
              Handler.removeServer cursorHandler f n = .ok (true, .content v))
        ∧ (L.filter (fun s => !(s.name == n))).length
            + (L.filter (fun s => s.name == n)).length = L.length)
    ∧ (∀ (f : PFile) (L : List MCPServer) (n : String),
        vscodeHandler.load f = .ok L →
        (∀ res, Handler.removeServer vscodeHandler f n = .ok res →
          (res.1 = true ↔ L.any (fun s => s.name == n) = true) ∧ (res.1 = false → res.2 = f))
        ∧ (L.any (fun s => s.name == n) = false →
            Handler.removeServer vscodeHandler f n = .ok (false, f))
        ∧ (L.any (fun s => s.name == n) = true →
            ∀ v, vscodeHandler.save f (L.filter (fun s => !(s.name == n))) = .ok v →
              Handler.removeServer vscodeHandler f n = .ok (true, .content v))
        ∧ (L.filter (fun s => !(s.name == n))).length
            + (L.filter (fun s => s.name == n)).length = L.length)
    ∧ (∀ (f : PFile) (L : List MCPServer) (n : String),
        geminiHandler.load f = .ok L →
        (∀ res, Handler.removeServer geminiHandler f n = .ok res →
          (res.1 = true ↔ L.any (fun s => s.name == n) = true) ∧ (res.1 = false → res.2 = f))
        ∧ (L.any (fun s => s.name == n) = false →
            Handler.removeServer geminiHandler f n = .ok (false, f))
        ∧ (L.any (fun s => s.name == n) = true →
            ∀ v, geminiHandler.save f (L.filter (fun s => !(s.name == n))) = .ok v →
              Handler.removeServer geminiHandler f n = .ok (true, .content v))
        ∧ (L.filter (fun s => !(s.name == n))).length
            + (L.filter (fun s => s.name == n)).length = L.length)
    ∧ (∀ (f : PFile) (L : List MCPServer) (n : String),
        opencodeHandler.load f = .ok L →
        (∀ res, Handler.removeServer opencodeHandler f n = .ok res →
          (res.1 = true ↔ L.any (fun s => s.name == n) = true) ∧ (res.1 = false → res.2 = f))
        ∧ (L.any (fun s => s.name == n) = false →
            Handler.removeServer opencodeHandler f n = .ok (false, f))
        ∧ (L.any (fun s => s.name == n) = true →
            ∀ v, opencodeHandler.save f (L.filter (fun s => !(s.name == n))) = .ok v →
              Handler.removeServer opencodeHandler f n = .ok (true, .content v))
        ∧ (L.filter (fun s => !(s.name == n))).length
            + (L.filter (fun s => s.name == n)).length = L.length) :=
  ⟨fun f L n hl => removeServer_full claudeCodeHandler f L n hl,
   fun f L n hl => removeServer_full cursorHandler f L n hl,
   fun f L n hl => removeServer_full vscodeHandler f L n hl,
   fun f L n hl => removeServer_full geminiHandler f L n hl,
   fun f L n hl => removeServer_full opencodeHandler f L n hl⟩

/-- Witness for the amended C4: on a claude-code config holding exactly one
server `x`, removing `x` returns `true` and writes the emptied mapping;
removing a missing name on a missing file returns `false` with the file
unchanged. -/
theorem c4_remove_semantics_witness :
    claudeCodeHandler.load
        (.content (.jobj [("mcpServers", .jobj [("x", .jobj [("command", .jstr "c")])])]))
      = .ok [⟨"x", "c", [], [], .stdio, none, true, none⟩]
    ∧ Handler.removeServer claudeCodeHandler
        (.content (.jobj [("mcpServers", .jobj [("x", .jobj [("command", .jstr "c")])])])) "x"
      = .ok (true, .content (.jobj [("mcpServers", .jobj [])]))
    ∧ claudeCodeHandler.load .missing = .ok []
    ∧ Handler.removeServer claudeCodeHandler .missing "x" = .ok (false, .missing) :=
  ⟨rfl,
   (c4_remove_semantics.1
      (.content (.jobj [("mcpServers", .jobj [("x", .jobj [("command", .jstr "c")])])]))
      [⟨"x", "c", [], [], .stdio, none, true, none⟩] "x" rfl).2.2.1 rfl
      (.jobj [("mcpServers", .jobj [])]) rfl,
   rfl,
   (c4_remove_semantics.1 .missing [] "x" rfl).2.1 rfl⟩

/-- C4 counterexample: on the cursor both-format config where both
sub-formats define a server named `dup`, `remove_server "dup"` returns
`true` although the record count drops from 2 to 0 — not by exactly one as
the claim states. -/
theorem c4_counterexample :
    cursorLoad (.content (.jobj sampleDupFile))
        = .ok [⟨"dup", "a", [], [], .stdio, none, true, none⟩,
               ⟨"dup", "b", [], [], .stdio, none, true, none⟩]
    ∧ Handler.removeServer cursorHandler (.content (.jobj sampleDupFile)) "dup"
        = .ok (true, .content (.jobj [("mcpServers", .jobj [])]))
    ∧ cursorLoad (.content (.jobj [("mcpServers", .jobj [])])) = .ok []
    ∧ ([⟨"dup", "a", [], [], .stdio, none, true, none⟩,
        ⟨"dup", "b", [], [], .stdio, none, true, none⟩] : List MCPServer).length
        ≠ ([] : List MCPServer).length + 1 :=
  ⟨rfl, rfl, rfl, by decide⟩

/-- C9: the loaded sequence of the cursor adapter need not have unique
names: on a both-format config the load result is the concatenation of the
claude-format records and the native-format records (so a name present in
each sub-format appears twice), and one `remove_server` call on such a name
deletes every record bearing it — at least two — and returns `true`. -/
theorem c9_duplicate_name_union_remove :
    (∀ (fields m : List (String × JVal)) (sl : List JVal) (L : List MCPServer),
       jlookup fields "mcpServers" = some (.jobj m) → m ≠ [] →
       jlookup fields "servers" = some (.jarr sl) → sl ≠ [] →
       cursorLoad (.content (.jobj fields)) = .ok L →
       ∃ La Lb, loadEntriesWith parseEntryCursorClaude m = .ok La
         ∧ loadListWith parseEntryCursorNative sl = .ok Lb
         ∧ L = La ++ Lb)
    ∧ (∀ (f : PFile) (L : List MCPServer) (n : String),
        cursorHandler.load f = .ok L →
        2 ≤ (L.filter (fun s => s.name == n)).length →
        (L.filter (fun s => !(s.name == n))).length + 2 ≤ L.length
        ∧ (L.filter (fun s => !(s.name == n))).filter (fun s => s.name == n) = []
        ∧ ∀ v, cursorHandler.save f (L.filter (fun s => !(s.name == n))) = .ok v →
            Handler.removeServer cursorHandler f n = .ok (true, .content v)) := by
  constructor
  · intro fields m sl L hm hmne hsl hslne hL
    have hmE : m.isEmpty = false := by
      cases hq : m
      · exact absurd hq hmne
      · rfl
    have hslE : sl.isEmpty = false := by
      cases hq : sl
      · exact absurd hq hslne
      · rfl
    have hdet : detectConfigFormat fields = .fmtBoth := by
      unfold detectConfigFormat
      rw [hm, hsl]
      simp [pyTruthy, hmE, hslE]
    have hLF : cursorLoadFields fields = .ok L := hL
    unfold cursorLoadFields at hLF
    rw [hdet] at hLF
    cases hA : cursorLoadClaudePart fields with
    | error e => rw [hA] at hLF; exact absurd hLF (by simp)
    | ok a =>
      rw [hA] at hLF
      cases hB : cursorLoadNativePart fields with
      | error e => rw [hB] at hLF; exact absurd hLF (by simp)
      | ok b =>
        rw [hB] at hLF
        have hL' : a ++ b = L := by simpa using hLF
        have ha' : loadEntriesWith parseEntryCursorClaude m = .ok a := by
          have h2 : cursorLoadClaudePart fields = .ok a := hA
          unfold cursorLoadClaudePart at h2
          rw [hm] at h2
          exact h2
        have hb' : loadListWith parseEntryCursorNative sl = .ok b := by
          have h2 : cursorLoadNativePart fields = .ok b := hB
          unfold cursorLoadNativePart at h2
          rw [hsl] at h2
          exact h2
        exact ⟨a, b, ha', hb', hL'.symm⟩
  · intro f L n hl h2
    have key := filter_not_length_lt_iff (fun s => s.name == n) L
    have parts := filter_length_partition (fun s => s.name == n) L
    refine ⟨by omega, ?_, ?_⟩
    · rw [List.filter_eq_nil_iff]
      intro a ha
      have := List.of_mem_filter ha
      simp at this
      simp [this]
    · intro v hv
      have hany : L.any (fun s => s.name == n) = true := by
        rw [← key]
        omega
      exact (removeServer_full cursorHandler f L n hl).2.2.1 hany v hv

/-- Witness for C9 on the concrete duplicate-name both-format config. -/
theorem c9_duplicate_name_union_remove_witness :
    (∃ La Lb,
      loadEntriesWith parseEntryCursorClaude [("dup", .jobj [("command", .jstr "a")])] = .ok La
      ∧ loadListWith parseEntryCursorNative
          [.jobj [("name", .jstr "dup"), ("command", .jstr "b")]] = .ok Lb
      ∧ [(⟨"dup", "a", [], [], .stdio, none, true, none⟩ : MCPServer),
         ⟨"dup", "b", [], [], .stdio, none, true, none⟩] = La ++ Lb)
    ∧ (2 ≤ (([(⟨"dup", "a", [], [], .stdio, none, true, none⟩ : MCPServer),
              ⟨"dup", "b", [], [], .stdio, none, true, none⟩]).filter
            (fun s => s.name == "dup")).length)
    ∧ Handler.removeServer cursorHandler (.content (.jobj sampleDupFile)) "dup"
        = .ok (true, .content (.jobj [("mcpServers", .jobj [])])) :=
  ⟨c9_duplicate_name_union_remove.1 sampleDupFile
      [("dup", .jobj [("command", .jstr "a")])]
      [.jobj [("name", .jstr "dup"), ("command", .jstr "b")]]
      [⟨"dup", "a", [], [], .stdio, none, true, none⟩,
       ⟨"dup", "b", [], [], .stdio, none, true, none⟩]
      rfl (by simp) rfl (by simp) rfl,
   by decide,
   (c9_duplicate_name_union_remove.2 (.content (.jobj sampleDupFile))
      [⟨"dup", "a", [], [], .stdio, none, true, none⟩,
       ⟨"dup", "b", [], [], .stdio, none, true, none⟩] "dup" rfl (by decide)).2.2
      (.jobj [("mcpServers", .jobj [])]) rfl⟩

theorem readStrList_map (l : List String) : readStrList (l.map JVal.jstr) = .ok l := by
  induction l with
  | nil => rfl
  | cons a rest ih => simp [readStrList, ih]

theorem readStrMap_map (l : List (String × String)) :
    readStrMap (l.map fun p => (p.1, JVal.jstr p.2)) = .ok l := by
  induction l with
  | nil => rfl
  | cons a rest ih =>
    obtain ⟨k, v⟩ := a
    simp [readStrMap, ih]

theorem beq_name_false (a b : String) (h : a ≠ b) : (a == b) = false := by
  simp [h]

theorem parseEntryClaude_wf (k : String) (v : JVal) (s : MCPServer)
    (h : parseEntryClaude k v = .ok s) : wfServer s = true := by
  unfold parseEntryClaude at h
  repeat' split at h
  all_goals first
    | exact absurd h (by simp)
    | exact mkServer_ok_wf _ _ _ _ _ _ _ _ _ h

theorem parseEntryVSCode_wf (k : String) (v : JVal) (s : MCPServer)
    (h : parseEntryVSCode k v = .ok s) : wfServer s = true := by
  unfold parseEntryVSCode at h
  repeat' split at h
  all_goals first
    | exact absurd h (by simp)
    | exact mkServer_ok_wf _ _ _ _ _ _ _ _ _ h

theorem parseEntryGemini_wf (k : String) (v : JVal) (s : MCPServer)
    (h : parseEntryGemini k v = .ok s) : wfServer s = true := by
  unfold parseEntryGemini at h
  repeat' split at h
  all_goals first
    | exact absurd h (by simp)
    | exact mkServer_ok_wf _ _ _ _ _ _ _ _ _ h

theorem loadEntriesWith_mem (p : String → JVal → Except ErrKind MCPServer)
    (l : List (String × JVal)) (out : List MCPServer)
    (h : loadEntriesWith p l = .ok out) :
    ∀ m ∈ out, ∃ e ∈ l, p e.1 e.2 = .ok m := by
  induction l generalizing out with
  | nil =>
    simp [loadEntriesWith] at h
    intro m hm
    rw [h] at hm
    simp at hm
  | cons e rest ih =>
    obtain ⟨k, v⟩ := e
    simp only [loadEntriesWith] at h
    cases hp : p k v with
    | error e0 => rw [hp] at h; exact absurd h (by simp)
    | ok s0 =>
      rw [hp] at h
      cases hr : loadEntriesWith p rest with
      | error e0 => rw [hr] at h; exact absurd h (by simp)
      | ok ss =>
        rw [hr] at h
        have hcons : s0 :: ss = out := by simpa using h
        intro m hm
        rw [← hcons] at hm
        rcases List.mem_cons.mp hm with h1 | h1
        · exact ⟨(k, v), by simp, by rw [h1]; exact hp⟩
        · obtain ⟨e2, he2, hp2⟩ := ih ss hr m h1
          exact ⟨e2, by simp [he2], hp2⟩

theorem find_last {α : Type} (p : α → Bool) (M : List α) (x : α)
    (hM : ∀ m ∈ M, p m = false) (hx : p x = true) :
    List.find? p (M ++ [x]) = some x := by
  induction M with
  | nil => simp [List.find?, hx]
  | cons a rest ih =>
    have ha : p a = false := hM a (by simp)
    simp only [List.cons_append, List.find?, ha]
    exact ih (fun m hm => hM m (by simp [hm]))

theorem entries_decode (p : String → JVal → Except ErrKind MCPServer)
    (enc : MCPServer → JVal) (norm : MCPServer → MCPServer)
    (hdec : ∀ s, wfServer s = true → p s.name (enc s) = .ok (norm s))
    (hname : ∀ s, (norm s).name = s.name)
    (L' : List MCPServer) (r : MCPServer)
    (hwP : ∀ s ∈ L', wfServer s = true)
    (hne : ∀ s ∈ L', s.name ≠ r.name)
    (hwr : wfServer r = true) :
    ∃ M, loadEntriesWith p (buildObjWith (fun s => some (enc s)) (L' ++ [r]))
        = .ok (M ++ [norm r])
      ∧ ∀ m ∈ M, (m.name == r.name) = false := by
  have hP : ∀ e ∈ buildObjWith (fun s => some (enc s)) L',
      ∃ s ∈ L', e = (s.name, enc s) :=
    buildObjWith_prop (fun s => some (enc s))
      (fun e => ∃ s ∈ L', e = (s.name, enc s)) L'
      (fun s hs v hv => ⟨s, hs, by
        have hv' : enc s = v := by simpa using hv
        rw [hv']⟩)
  have hkeys : ∀ e ∈ buildObjWith (fun s => some (enc s)) L', e.1 ≠ r.name := by
    intro e he
    obtain ⟨s, hs, hes⟩ := hP e he
    rw [hes]
    exact hne s hs
  have hnone : jlookup (buildObjWith (fun s => some (enc s)) L') r.name = none :=
    jlookup_eq_none_of_forall _ _ hkeys
  have hstep : buildStep (fun s => some (enc s)) (buildObjWith (fun s => some (enc s)) L') r
      = jset (buildObjWith (fun s => some (enc s)) L') r.name (enc r) := rfl
  have hsplit : buildObjWith (fun s => some (enc s)) (L' ++ [r])
      = buildObjWith (fun s => some (enc s)) L' ++ [(r.name, enc r)] := by
    rw [buildObjWith_append_single, hstep, jset_append_of_lookup_none _ _ _ hnone]
  have hforall : ∀ e ∈ buildObjWith (fun s => some (enc s)) L',
      ∃ m, p e.1 e.2 = .ok m ∧ (m.name == r.name) = false := by
    intro e he
    obtain ⟨s, hs, hes⟩ := hP e he
    refine ⟨norm s, ?_, ?_⟩
    · rw [hes]
      exact hdec s (hwP s hs)
    · rw [hname s]
      exact beq_name_false _ _ (hne s hs)
  obtain ⟨M, hM, hQ⟩ := loadEntriesWith_ok_of p (fun m => (m.name == r.name) = false) _ hforall
  have hone : loadEntriesWith p [(r.name, enc r)] = .ok [norm r] := by
    simp only [loadEntriesWith, hdec r hwr]
  refine ⟨M, ?_, hQ⟩
  rw [hsplit]
  exact loadEntriesWith_append p _ _ _ _ hM hone


theorem parse_serverToClaude (s : MCPServer) (hwf : wfServer s = true) :
    parseEntryClaude s.name (serverToClaude s) = .ok (normClaude s) := by
  have hv := wfServer_name s hwf
  cases hst : s.server_type with
  | stdio =>
    rcases hu : s.url with _ | u
    · simp [parseEntryClaude, serverToClaude, optTypeEntry, optUrlEntry, getStrD, getStrListD,
        getStrMapD, getOptStr, typeFromField, jlookup, readStrList_map, readStrMap_map, mkServer,
        hv, hst, hu, normClaude, pyNormUrl, stypeNeedsUrl, pyTruthyOptStr]
    · cases hue : u.isEmpty
      · simp [parseEntryClaude, serverToClaude, optTypeEntry, optUrlEntry, getStrD, getStrListD,
          getStrMapD, getOptStr, typeFromField, jlookup, readStrList_map, readStrMap_map, mkServer,
          hv, hst, hu, hue, normClaude, pyNormUrl, stypeNeedsUrl, pyTruthyOptStr]
      · simp [parseEntryClaude, serverToClaude, optTypeEntry, optUrlEntry, getStrD, getStrListD,
          getStrMapD, getOptStr, typeFromField, jlookup, readStrList_map, readStrMap_map, mkServer,
          hv, hst, hu, hue, normClaude, pyNormUrl, stypeNeedsUrl, pyTruthyOptStr]
  | sse =>
    have hurl := wfServer_url s hwf (by rw [hst]; rfl)
    rcases hu : s.url with _ | u
    · rw [hu] at hurl; simp [pyTruthyOptStr] at hurl
    · rw [hu] at hurl
      have hue : u.isEmpty = false := by simpa [pyTruthyOptStr] using hurl
      simp [parseEntryClaude, serverToClaude, optTypeEntry, optUrlEntry, getStrD, getStrListD,
        getStrMapD, getOptStr, typeFromField, jlookup, readStrList_map, readStrMap_map, mkServer,
        hv, hst, hu, hue, normClaude, pyNormUrl, stypeNeedsUrl, pyTruthyOptStr,
        MCPServerType.value]
  | http =>
    have hurl := wfServer_url s hwf (by rw [hst]; rfl)
    rcases hu : s.url with _ | u
    · rw [hu] at hurl; simp [pyTruthyOptStr] at hurl
    · rw [hu] at hurl
      have hue : u.isEmpty = false := by simpa [pyTruthyOptStr] using hurl
      simp [parseEntryClaude, serverToClaude, optTypeEntry, optUrlEntry, getStrD, getStrListD,
        getStrMapD, getOptStr, typeFromField, jlookup, readStrList_map, readStrMap_map, mkServer,
        hv, hst, hu, hue, normClaude, pyNormUrl, stypeNeedsUrl, pyTruthyOptStr,
        MCPServerType.value]

theorem parse_serverToVSCode (s : MCPServer) (hwf : wfServer s = true) :
    parseEntryVSCode s.name (serverToVSCode s) = .ok (normVSCode s) := by
  have hv := wfServer_name s hwf
  have henvcase : s.env.isEmpty = true ∨ s.env.isEmpty = false := by
    cases s.env.isEmpty
    · exact Or.inr rfl
    · exact Or.inl rfl
  have henv2 : s.env.isEmpty = true → s.env = [] := by
    intro hx
    simpa using hx
  cases hst : s.server_type with
  | stdio =>
    rcases hu : s.url with _ | u
    · rcases henvcase with he | he
      · simp [parseEntryVSCode, serverToVSCode, optTypeEntry, optUrlEntry, getStrD, getStrListD,
          getStrMapD, getOptStr, getDescD, typeFromField, jlookup, readStrList_map, readStrMap_map,
          mkServer, hv, hst, hu, he, henv2 he, normVSCode, pyNormUrl, stypeNeedsUrl, pyTruthyOptStr]
      · simp [parseEntryVSCode, serverToVSCode, optTypeEntry, optUrlEntry, getStrD, getStrListD,
          getStrMapD, getOptStr, getDescD, typeFromField, jlookup, readStrList_map, readStrMap_map,
          mkServer, hv, hst, hu, he, normVSCode, pyNormUrl, stypeNeedsUrl, pyTruthyOptStr]
    · cases hue : u.isEmpty <;> rcases henvcase with he | he <;>
        simp [parseEntryVSCode, serverToVSCode, optTypeEntry, optUrlEntry, getStrD, getStrListD,
          getStrMapD, getOptStr, getDescD, typeFromField, jlookup, readStrList_map, readStrMap_map,
          mkServer, hv, hst, hu, hue, he, henv2, normVSCode, pyNormUrl, stypeNeedsUrl,
          pyTruthyOptStr]
  | sse =>
    have hurl := wfServer_url s hwf (by rw [hst]; rfl)
    rcases hu : s.url with _ | u
    · rw [hu] at hurl; simp [pyTruthyOptStr] at hurl
    · rw [hu] at hurl
      have hue : u.isEmpty = false := by simpa [pyTruthyOptStr] using hurl
      rcases henvcase with he | he <;>
        simp [parseEntryVSCode, serverToVSCode, optTypeEntry, optUrlEntry, getStrD, getStrListD,
          getStrMapD, getOptStr, getDescD, typeFromField, jlookup, readStrList_map, readStrMap_map,
          mkServer, hv, hst, hu, hue, he, henv2, normVSCode, pyNormUrl, stypeNeedsUrl,
          pyTruthyOptStr, MCPServerType.value]
  | http =>
    have hurl := wfServer_url s hwf (by rw [hst]; rfl)
    rcases hu : s.url with _ | u
    · rw [hu] at hurl; simp [pyTruthyOptStr] at hurl
    · rw [hu] at hurl
      have hue : u.isEmpty = false := by simpa [pyTruthyOptStr] using hurl
      rcases henvcase with he | he <;>
        simp [parseEntryVSCode, serverToVSCode, optTypeEntry, optUrlEntry, getStrD, getStrListD,
          getStrMapD, getOptStr, getDescD, typeFromField, jlookup, readStrList_map, readStrMap_map,
          mkServer, hv, hst, hu, hue, he, henv2, normVSCode, pyNormUrl, stypeNeedsUrl,
          pyTruthyOptStr, MCPServerType.value]

theorem parse_serverToGemini (s : MCPServer) (hwf : wfServer s = true) :
    parseEntryGemini s.name (serverToGemini s) = .ok (normGemini s) := by
  have hv := wfServer_name s hwf
  cases hst : s.server_type with
  | stdio =>
    rcases hu : s.url with _ | u
    · simp [parseEntryGemini, serverToGemini, optTypeEntry, optUrlEntry, getStrD, getStrListD,
        getStrMapD, getOptStr, getBoolD, getDescD, geminiUrl, pyTruthyOpt, typeFromField, jlookup,
        readStrList_map, readStrMap_map, mkServer, hv, hst, hu, normGemini, pyNormUrl,
        stypeNeedsUrl, pyTruthyOptStr]
    · cases hue : u.isEmpty <;>
        simp [parseEntryGemini, serverToGemini, optTypeEntry, optUrlEntry, getStrD, getStrListD,
          getStrMapD, getOptStr, getBoolD, getDescD, geminiUrl, pyTruthyOpt, typeFromField,
          jlookup, readStrList_map, readStrMap_map, mkServer, hv, hst, hu, hue, normGemini,
          pyNormUrl, stypeNeedsUrl, pyTruthyOptStr]
  | sse =>
    have hurl := wfServer_url s hwf (by rw [hst]; rfl)
    rcases hu : s.url with _ | u
    · rw [hu] at hurl; simp [pyTruthyOptStr] at hurl
    · rw [hu] at hurl
      have hue : u.isEmpty = false := by simpa [pyTruthyOptStr] using hurl
      simp [parseEntryGemini, serverToGemini, optTypeEntry, optUrlEntry, getStrD, getStrListD,
        getStrMapD, getOptStr, getBoolD, getDescD, geminiUrl, pyTruthyOpt, typeFromField, jlookup,
        readStrList_map, readStrMap_map, mkServer, hv, hst, hu, hue, normGemini, pyNormUrl,
        stypeNeedsUrl, pyTruthyOptStr, MCPServerType.value]
  | http =>
    have hurl := wfServer_url s hwf (by rw [hst]; rfl)
    rcases hu : s.url with _ | u
    · rw [hu] at hurl; simp [pyTruthyOptStr] at hurl
    · rw [hu] at hurl
      have hue : u.isEmpty = false := by simpa [pyTruthyOptStr] using hurl
      simp [parseEntryGemini, serverToGemini, optTypeEntry, optUrlEntry, getStrD, getStrListD,
        getStrMapD, getOptStr, getBoolD, getDescD, geminiUrl, pyTruthyOpt, typeFromField, jlookup,
        readStrList_map, readStrMap_map, mkServer, hv, hst, hu, hue, normGemini, pyNormUrl,
        stypeNeedsUrl, pyTruthyOptStr, MCPServerType.value]

theorem getServer_of_load (h : Handler) (f : PFile) (ss : List MCPServer) (n : String)
    (hl : h.load f = .ok ss) :
    h.getServer f n = .ok (ss.find? (fun s => s.name == n)) := by
  unfold Handler.getServer
  rw [hl]

theorem addServer_of_load_save (h : Handler) (f : PFile) (L : List MCPServer) (r : MCPServer)
    (v : JVal) (hl : h.load f = .ok L)
    (hs : h.save f (L.filter (fun s => !(s.name == r.name)) ++ [r]) = .ok v) :
    h.addServer f r = .ok (.content v) := by
  have h1 : h.addServer f r
      = (match h.save f (L.filter (fun s => !(s.name == r.name)) ++ [r]) with
         | .error e => .error e
         | .ok v => .ok (.content v)) := by
    unfold Handler.addServer
    rw [hl]
  rw [h1, hs]

theorem claudeCodeLoad_wf (f : PFile) (L : List MCPServer)
    (hl : claudeCodeLoad f = .ok L) : ∀ s ∈ L, wfServer s = true := by
  cases f with
  | missing =>
    have h0 : [] = L := by simpa [claudeCodeLoad] using hl
    intro s hs
    rw [← h0] at hs
    simp at hs
  | invalid => simp [claudeCodeLoad] at hl
  | content v =>
    cases v with
    | jobj fields =>
      have hlf : claudeCodeLoadFields fields = .ok L := hl
      unfold claudeCodeLoadFields at hlf
      cases hm : jlookup fields "mcpServers" with
      | none =>
        rw [hm] at hlf
        have h0 : [] = L := by simpa using hlf
        intro s hs
        rw [← h0] at hs
        simp at hs
      | some mv =>
        rw [hm] at hlf
        cases mv with
        | jobj m =>
          intro s hs
          obtain ⟨e, _, hp⟩ := loadEntriesWith_mem _ _ _ hlf s hs
          exact parseEntryClaude_wf e.1 e.2 s hp
        | jnull => exact absurd hlf (by simp)
        | jbool b => exact absurd hlf (by simp)
        | jnum n => exact absurd hlf (by simp)
        | jstr s2 => exact absurd hlf (by simp)
        | jarr xs => exact absurd hlf (by simp)
    | jnull => simp [claudeCodeLoad] at hl
    | jbool b => simp [claudeCodeLoad] at hl
    | jnum n => simp [claudeCodeLoad] at hl
    | jstr s2 => simp [claudeCodeLoad] at hl
    | jarr xs => simp [claudeCodeLoad] at hl

theorem geminiLoad_wf (f : PFile) (L : List MCPServer)
    (hl : geminiLoad f = .ok L) : ∀ s ∈ L, wfServer s = true := by
  cases f with
  | missing =>
    have h0 : [] = L := by simpa [geminiLoad] using hl
    intro s hs
    rw [← h0] at hs
    simp at hs
  | invalid => simp [geminiLoad] at hl
  | content v =>
    cases v with
    | jobj fields =>
      have hlf : geminiLoadFields fields = .ok L := hl
      unfold geminiLoadFields at hlf
      cases hm : jlookup fields "mcpServers" with
      | none =>
        rw [hm] at hlf
        have h0 : [] = L := by simpa using hlf
        intro s hs
        rw [← h0] at hs
        simp at hs
      | some mv =>
        rw [hm] at hlf
        cases mv with
        | jobj m =>
          intro s hs
          obtain ⟨e, _, hp⟩ := loadEntriesWith_mem _ _ _ hlf s hs
          exact parseEntryGemini_wf e.1 e.2 s hp
        | jnull => exact absurd hlf (by simp)
        | jbool b => exact absurd hlf (by simp)
        | jnum n => exact absurd hlf (by simp)
        | jstr s2 => exact absurd hlf (by simp)
        | jarr xs => exact absurd hlf (by simp)
    | jnull => simp [geminiLoad] at hl
    | jbool b => simp [geminiLoad] at hl
    | jnum n => simp [geminiLoad] at hl
    | jstr s2 => simp [geminiLoad] at hl
    | jarr xs => simp [geminiLoad] at hl

theorem vscodeLoad_wf (f : PFile) (L : List MCPServer)
    (hl : vscodeLoad f = .ok L) : ∀ s ∈ L, wfServer s = true := by
  cases f with
  | missing =>
    have h0 : [] = L := by simpa [vscodeLoad] using hl
    intro s hs
    rw [← h0] at hs
    simp at hs
  | invalid => simp [vscodeLoad] at hl
  | content v =>
    cases v with
    | jobj fields =>
      have hlf : vscodeLoadFields fields = .ok L := hl
      unfold vscodeLoadFields at hlf
      cases hm : jlookup fields "mcp" with
      | none =>
        rw [hm] at hlf
        have h0 : [] = L := by simpa using hlf
        intro s hs
        rw [← h0] at hs
        simp at hs
      | some mv =>
        rw [hm] at hlf
        cases mv with
        | jobj m =>
          have hlf2 : (match jlookup m "servers" with
              | none => (.ok [] : Except ErrKind (List MCPServer))
              | some (.jobj sc) => loadEntriesWith parseEntryVSCode sc
              | some _ => .error .pyError) = .ok L := hlf
          cases hsv : jlookup m "servers" with
          | none =>
            rw [hsv] at hlf2
            have h0 : [] = L := by simpa using hlf2
            intro s hs
            rw [← h0] at hs
            simp at hs
          | some sv =>
            rw [hsv] at hlf2
            cases sv with
            | jobj sc =>
              intro s hs
              obtain ⟨e, _, hp⟩ := loadEntriesWith_mem _ _ _ hlf2 s hs
              exact parseEntryVSCode_wf e.1 e.2 s hp
            | jnull => exact absurd hlf2 (by simp)
            | jbool b => exact absurd hlf2 (by simp)
            | jnum n => exact absurd hlf2 (by simp)
            | jstr s2 => exact absurd hlf2 (by simp)
            | jarr xs => exact absurd hlf2 (by simp)
        | jnull => exact absurd hlf (by simp)
        | jbool b => exact absurd hlf (by simp)
        | jnum n => exact absurd hlf (by simp)
        | jstr s2 => exact absurd hlf (by simp)
        | jarr xs => exact absurd hlf (by simp)
    | jnull => simp [vscodeLoad] at hl
    | jbool b => simp [vscodeLoad] at hl
    | jnum n => simp [vscodeLoad] at hl
    | jstr s2 => simp [vscodeLoad] at hl
    | jarr xs => simp [vscodeLoad] at hl

theorem claude_roundtrip (f : PFile) (L : List MCPServer) (r : MCPServer)
    (hl : claudeCodeLoad f = .ok L) (hw : wfServer r = true) :
    ∃ f', Handler.addServer claudeCodeHandler f r = .ok f'
      ∧ Handler.getServer claudeCodeHandler f' r.name = .ok (some (normClaude r)) := by
  have hwL : ∀ s ∈ L, wfServer s = true := claudeCodeLoad_wf f L hl
  have hwL' : ∀ s ∈ L.filter (fun s => !(s.name == r.name)), wfServer s = true :=
    fun s hs => hwL s (List.mem_of_mem_filter hs)
  have hneL' : ∀ s ∈ L.filter (fun s => !(s.name == r.name)), s.name ≠ r.name := by
    intro s hs
    have h2 := List.of_mem_filter hs
    simpa using h2
  obtain ⟨M, hM, hQ⟩ := entries_decode parseEntryClaude serverToClaude normClaude
    parse_serverToClaude (fun s => rfl) (L.filter (fun s => !(s.name == r.name))) r hwL' hneL' hw
  have hfind : List.find? (fun s => s.name == r.name) (M ++ [normClaude r])
      = some (normClaude r) := by
    apply find_last
    · exact hQ
    · simp [normClaude]
  cases f with
  | invalid => simp [claudeCodeLoad] at hl
  | missing =>
    have hsv : claudeCodeSave .missing (L.filter (fun s => !(s.name == r.name)) ++ [r])
        = .ok (claudeCodeSaveFields [] (L.filter (fun s => !(s.name == r.name)) ++ [r])) := rfl
    refine ⟨_, addServer_of_load_save claudeCodeHandler _ L r _ hl hsv, ?_⟩
    have hload' : claudeCodeHandler.load (.content (claudeCodeSaveFields []
        (L.filter (fun s => !(s.name == r.name)) ++ [r]))) = .ok (M ++ [normClaude r]) := by
      have h1 : claudeCodeHandler.load (.content (claudeCodeSaveFields []
          (L.filter (fun s => !(s.name == r.name)) ++ [r])))
          = (match jlookup (jset [] "mcpServers" (.jobj (buildObjWith
              (fun s => some (serverToClaude s))
              (L.filter (fun s => !(s.name == r.name)) ++ [r])))) "mcpServers" with
             | none => (.ok [] : Except ErrKind (List MCPServer))
             | some (.jobj m) => loadEntriesWith parseEntryClaude m
             | some _ => .error .pyError) := rfl
      rw [h1, jlookup_jset_self]
      exact hM
    rw [getServer_of_load claudeCodeHandler _ _ r.name hload', hfind]
  | content v =>
    cases v with
    | jobj fields =>
      have hsv : claudeCodeSave (.content (.jobj fields))
          (L.filter (fun s => !(s.name == r.name)) ++ [r])
          = .ok (claudeCodeSaveFields fields
              (L.filter (fun s => !(s.name == r.name)) ++ [r])) := rfl
      refine ⟨_, addServer_of_load_save claudeCodeHandler _ L r _ hl hsv, ?_⟩
      have hload' : claudeCodeHandler.load (.content (claudeCodeSaveFields fields
          (L.filter (fun s => !(s.name == r.name)) ++ [r]))) = .ok (M ++ [normClaude r]) := by
        have h1 : claudeCodeHandler.load (.content (claudeCodeSaveFields fields
            (L.filter (fun s => !(s.name == r.name)) ++ [r])))
            = (match jlookup (jset fields "mcpServers" (.jobj (buildObjWith
                (fun s => some (serverToClaude s))
                (L.filter (fun s => !(s.name == r.name)) ++ [r])))) "mcpServers" with
               | none => (.ok [] : Except ErrKind (List MCPServer))
               | some (.jobj m) => loadEntriesWith parseEntryClaude m
               | some _ => .error .pyError) := rfl
        rw [h1, jlookup_jset_self]
        exact hM
      rw [getServer_of_load claudeCodeHandler _ _ r.name hload', hfind]
    | jnull => simp [claudeCodeLoad] at hl
    | jbool b => simp [claudeCodeLoad] at hl
    | jnum n => simp [claudeCodeLoad] at hl
    | jstr s2 => simp [claudeCodeLoad] at hl
    | jarr xs => simp [claudeCodeLoad] at hl

theorem gemini_roundtrip (f : PFile) (L : List MCPServer) (r : MCPServer)
    (hl : geminiLoad f = .ok L) (hw : wfServer r = true) :
    ∃ f', Handler.addServer geminiHandler f r = .ok f'
      ∧ Handler.getServer geminiHandler f' r.name = .ok (some (normGemini r)) := by
  have hwL : ∀ s ∈ L, wfServer s = true := geminiLoad_wf f L hl
  have hwL' : ∀ s ∈ L.filter (fun s => !(s.name == r.name)), wfServer s = true :=
    fun s hs => hwL s (List.mem_of_mem_filter hs)
  have hneL' : ∀ s ∈ L.filter (fun s => !(s.name == r.name)), s.name ≠ r.name := by
    intro s hs
    have h2 := List.of_mem_filter hs
    simpa using h2
  obtain ⟨M, hM, hQ⟩ := entries_decode parseEntryGemini serverToGemini normGemini
    parse_serverToGemini (fun s => rfl) (L.filter (fun s => !(s.name == r.name))) r hwL' hneL' hw
  have hfind : List.find? (fun s => s.name == r.name) (M ++ [normGemini r])
      = some (normGemini r) := by
    apply find_last
    · exact hQ
    · simp [normGemini]
  cases f with
  | invalid => simp [geminiLoad] at hl
  | missing =>
    have hsv : geminiSave .missing (L.filter (fun s => !(s.name == r.name)) ++ [r])
        = .ok (geminiSaveFields [] (L.filter (fun s => !(s.name == r.name)) ++ [r])) := rfl
    refine ⟨_, addServer_of_load_save geminiHandler _ L r _ hl hsv, ?_⟩
    have hload' : geminiHandler.load (.content (geminiSaveFields []
        (L.filter (fun s => !(s.name == r.name)) ++ [r]))) = .ok (M ++ [normGemini r]) := by
      have h1 : geminiHandler.load (.content (geminiSaveFields []
          (L.filter (fun s => !(s.name == r.name)) ++ [r])))
          = (match jlookup (jset [] "mcpServers" (.jobj (buildObjWith
              (fun s => some (serverToGemini s))
              (L.filter (fun s => !(s.name == r.name)) ++ [r])))) "mcpServers" with
             | none => (.ok [] : Except ErrKind (List MCPServer))
             | some (.jobj m) => loadEntriesWith parseEntryGemini m
             | some _ => .error .pyError) := rfl
      rw [h1, jlookup_jset_self]
      exact hM
    rw [getServer_of_load geminiHandler _ _ r.name hload', hfind]
  | content v =>
    cases v with
    | jobj fields =>
      have hsv : geminiSave (.content (.jobj fields))
          (L.filter (fun s => !(s.name == r.name)) ++ [r])
          = .ok (geminiSaveFields fields
              (L.filter (fun s => !(s.name == r.name)) ++ [r])) := rfl
      refine ⟨_, addServer_of_load_save geminiHandler _ L r _ hl hsv, ?_⟩
      have hload' : geminiHandler.load (.content (geminiSaveFields fields
          (L.filter (fun s => !(s.name == r.name)) ++ [r]))) = .ok (M ++ [normGemini r]) := by
        have h1 : geminiHandler.load (.content (geminiSaveFields fields
            (L.filter (fun s => !(s.name == r.name)) ++ [r])))
            = (match jlookup (jset fields "mcpServers" (.jobj (buildObjWith
                (fun s => some (serverToGemini s))
                (L.filter (fun s => !(s.name == r.name)) ++ [r])))) "mcpServers" with
               | none => (.ok [] : Except ErrKind (List MCPServer))
               | some (.jobj m) => loadEntriesWith parseEntryGemini m
               | some _ => .error .pyError) := rfl
        rw [h1, jlookup_jset_self]
        exact hM
      rw [getServer_of_load geminiHandler _ _ r.name hload', hfind]
    | jnull => simp [geminiLoad] at hl
    | jbool b => simp [geminiLoad] at hl
    | jnum n => simp [geminiLoad] at hl
    | jstr s2 => simp [geminiLoad] at hl
    | jarr xs => simp [geminiLoad] at hl

theorem vscode_roundtrip (f : PFile) (L : List MCPServer) (r : MCPServer)
    (hl : vscodeLoad f = .ok L) (hw : wfServer r = true) :
    ∃ f', Handler.addServer vscodeHandler f r = .ok f'
      ∧ Handler.getServer vscodeHandler f' r.name = .ok (some (normVSCode r)) := by
  have hwL : ∀ s ∈ L, wfServer s = true := vscodeLoad_wf f L hl
  have hwL' : ∀ s ∈ L.filter (fun s => !(s.name == r.name)), wfServer s = true :=
    fun s hs => hwL s (List.mem_of_mem_filter hs)
  have hneL' : ∀ s ∈ L.filter (fun s => !(s.name == r.name)), s.name ≠ r.name := by
    intro s hs
    have h2 := List.of_mem_filter hs
    simpa using h2
  obtain ⟨M, hM, hQ⟩ := entries_decode parseEntryVSCode serverToVSCode normVSCode
    parse_serverToVSCode (fun s => rfl) (L.filter (fun s => !(s.name == r.name))) r hwL' hneL' hw
  have hfind : List.find? (fun s => s.name == r.name) (M ++ [normVSCode r])
      = some (normVSCode r) := by
    apply find_last
    · exact hQ
    · simp [normVSCode]
  cases f with
  | invalid => simp [vscodeLoad] at hl
  | missing =>
    have hsv : vscodeSave .missing (L.filter (fun s => !(s.name == r.name)) ++ [r])
        = .ok (.jobj (jset [] "mcp" (.jobj (jset [] "servers" (.jobj (buildObjWith
            (fun s => some (serverToVSCode s))
            (L.filter (fun s => !(s.name == r.name)) ++ [r]))))))) := rfl
    refine ⟨_, addServer_of_load_save vscodeHandler _ L r _ hl hsv, ?_⟩
    have hload' : vscodeHandler.load (.content (.jobj (jset [] "mcp" (.jobj (jset [] "servers"
        (.jobj (buildObjWith (fun s => some (serverToVSCode s))
            (L.filter (fun s => !(s.name == r.name)) ++ [r]))))))))
        = .ok (M ++ [normVSCode r]) := by
      have h1 : vscodeHandler.load (.content (.jobj (jset [] "mcp" (.jobj (jset [] "servers"
          (.jobj (buildObjWith (fun s => some (serverToVSCode s))
              (L.filter (fun s => !(s.name == r.name)) ++ [r]))))))))
          = (match jlookup (jset [] "mcp" (.jobj (jset [] "servers"
              (.jobj (buildObjWith (fun s => some (serverToVSCode s))
                  (L.filter (fun s => !(s.name == r.name)) ++ [r])))))) "mcp" with
             | none => (.ok [] : Except ErrKind (List MCPServer))
             | some (.jobj m) =>
               match jlookup m "servers" with
               | none => .ok []
               | some (.jobj sc) => loadEntriesWith parseEntryVSCode sc
               | some _ => .error .pyError
             | some _ => .error .pyError) := rfl
      rw [h1, jlookup_jset_self]
      exact hM
    rw [getServer_of_load vscodeHandler _ _ r.name hload', hfind]
  | content v =>
    cases v with
    | jobj fields =>
      have hlf : vscodeLoadFields fields = .ok L := hl
      cases hm : jlookup fields "mcp" with
      | none =>
        have hsv : vscodeSave (.content (.jobj fields))
            (L.filter (fun s => !(s.name == r.name)) ++ [r])
            = .ok (.jobj (jset fields "mcp" (.jobj (jset [] "servers" (.jobj (buildObjWith
                (fun s => some (serverToVSCode s))
                (L.filter (fun s => !(s.name == r.name)) ++ [r]))))))) := by
          have h1 : vscodeSave (.content (.jobj fields))
              (L.filter (fun s => !(s.name == r.name)) ++ [r])
              = vscodeSaveFields fields (L.filter (fun s => !(s.name == r.name)) ++ [r]) := rfl
          rw [h1]
          unfold vscodeSaveFields
          rw [hm]
        refine ⟨_, addServer_of_load_save vscodeHandler _ L r _ hl hsv, ?_⟩
        have hload' : vscodeHandler.load (.content (.jobj (jset fields "mcp" (.jobj (jset []
            "servers" (.jobj (buildObjWith (fun s => some (serverToVSCode s))
                (L.filter (fun s => !(s.name == r.name)) ++ [r]))))))))
            = .ok (M ++ [normVSCode r]) := by
          have h1 : vscodeHandler.load (.content (.jobj (jset fields "mcp" (.jobj (jset []
              "servers" (.jobj (buildObjWith (fun s => some (serverToVSCode s))
                  (L.filter (fun s => !(s.name == r.name)) ++ [r]))))))))
              = (match jlookup (jset fields "mcp" (.jobj (jset [] "servers"
                  (.jobj (buildObjWith (fun s => some (serverToVSCode s))
                      (L.filter (fun s => !(s.name == r.name)) ++ [r])))))) "mcp" with
                 | none => (.ok [] : Except ErrKind (List MCPServer))
                 | some (.jobj m) =>
                   match jlookup m "servers" with
                   | none => .ok []
                   | some (.jobj sc) => loadEntriesWith parseEntryVSCode sc
                   | some _ => .error .pyError
                 | some _ => .error .pyError) := rfl
          rw [h1, jlookup_jset_self]
          exact hM
        rw [getServer_of_load vscodeHandler _ _ r.name hload', hfind]
      | some mv =>
        cases mv with
        | jobj m0 =>
          have hsv : vscodeSave (.content (.jobj fields))
              (L.filter (fun s => !(s.name == r.name)) ++ [r])
              = .ok (.jobj (jset fields "mcp" (.jobj (jset m0 "servers" (.jobj (buildObjWith
                  (fun s => some (serverToVSCode s))
                  (L.filter (fun s => !(s.name == r.name)) ++ [r]))))))) := by
            have h1 : vscodeSave (.content (.jobj fields))
                (L.filter (fun s => !(s.name == r.name)) ++ [r])
                = vscodeSaveFields fields (L.filter (fun s => !(s.name == r.name)) ++ [r]) := rfl
            rw [h1]
            unfold vscodeSaveFields
            rw [hm]
          refine ⟨_, addServer_of_load_save vscodeHandler _ L r _ hl hsv, ?_⟩
          have hinner : (match jlookup (jset m0 "servers" (.jobj (buildObjWith
              (fun s => some (serverToVSCode s))
              (L.filter (fun s => !(s.name == r.name)) ++ [r])))) "servers" with
              | none => (.ok [] : Except ErrKind (List MCPServer))
              | some (.jobj sc) => loadEntriesWith parseEntryVSCode sc
              | some _ => .error .pyError) = .ok (M ++ [normVSCode r]) := by
            rw [jlookup_jset_self]
            exact hM
          have hload' : vscodeHandler.load (.content (.jobj (jset fields "mcp" (.jobj (jset m0
              "servers" (.jobj (buildObjWith (fun s => some (serverToVSCode s))
                  (L.filter (fun s => !(s.name == r.name)) ++ [r]))))))))
              = .ok (M ++ [normVSCode r]) := by
            have h1 : vscodeHandler.load (.content (.jobj (jset fields "mcp" (.jobj (jset m0
                "servers" (.jobj (buildObjWith (fun s => some (serverToVSCode s))
                    (L.filter (fun s => !(s.name == r.name)) ++ [r]))))))))
                = (match jlookup (jset fields "mcp" (.jobj (jset m0 "servers"
                    (.jobj (buildObjWith (fun s => some (serverToVSCode s))
                        (L.filter (fun s => !(s.name == r.name)) ++ [r])))))) "mcp" with
                   | none => (.ok [] : Except ErrKind (List MCPServer))
                   | some (.jobj m) =>
                     match jlookup m "servers" with
                     | none => .ok []
                     | some (.jobj sc) => loadEntriesWith parseEntryVSCode sc
                     | some _ => .error .pyError
                   | some _ => .error .pyError) := rfl
            rw [h1, jlookup_jset_self]
            exact hinner
          rw [getServer_of_load vscodeHandler _ _ r.name hload', hfind]
        | jnull =>
          exfalso
          unfold vscodeLoadFields at hlf
          rw [hm] at hlf
          exact absurd hlf (by simp)
        | jbool b =>
          exfalso
          unfold vscodeLoadFields at hlf
          rw [hm] at hlf
          exact absurd hlf (by simp)
        | jnum n =>
          exfalso
          unfold vscodeLoadFields at hlf
          rw [hm] at hlf
          exact absurd hlf (by simp)
        | jstr s2 =>
          exfalso
          unfold vscodeLoadFields at hlf
          rw [hm] at hlf
          exact absurd hlf (by simp)
        | jarr xs =>
          exfalso
          unfold vscodeLoadFields at hlf
          rw [hm] at hlf
          exact absurd hlf (by simp)
    | jnull => simp [vscodeLoad] at hl
    | jbool b => simp [vscodeLoad] at hl
    | jnum n => simp [vscodeLoad] at hl
    | jstr s2 => simp [vscodeLoad] at hl
    | jarr xs => simp [vscodeLoad] at hl

theorem pyNormUrl_of_truthy (u : Option String) (h : pyTruthyOptStr u = true) :
    pyNormUrl u = u := by
  cases u with
  | none => simp [pyTruthyOptStr] at h
  | some s =>
    have hs : s.isEmpty = false := by simpa [pyTruthyOptStr] using h
    simp [pyNormUrl, hs]

/-- C3 counterexample: on the kind-B (cursor) adapter, adding a valid sse
record to a fresh config stores it in the native β sub-format, which has no
URL representation; the subsequent `get` does not return the record — the
reload fails with a validation error because the required URL was dropped. -/
theorem c3_counterexample :
    wfServer ⟨"s", "", [], [], .sse, some "http://x", true, none⟩ = true
    ∧ Handler.addServer cursorHandler .missing ⟨"s", "", [], [], .sse, some "http://x", true, none⟩
        = .ok (.content (.jobj [("version", .jstr "1.0"),
            ("servers", .jarr [.jobj [("name", .jstr "s"), ("type", .jstr "sse"),
              ("command", .jstr ""), ("enabled", .jbool true)]])]))
    ∧ Handler.getServer cursorHandler (.content (.jobj [("version", .jstr "1.0"),
          ("servers", .jarr [.jobj [("name", .jstr "s"), ("type", .jstr "sse"),
            ("command", .jstr ""), ("enabled", .jbool true)]])])) "s"
        = .error .validationError :=
  ⟨by decide, rfl, rfl⟩

/-- C3 (amended): the add-then-get round trip holds for the kind-A
(claude-code), kind-C (vscode) and kind-D (gemini-cli) adapters: for every
valid record `r` and every loadable config, `add(r)` then `get(r.name)`
returns `r` with only the documented lossy normalizations applied —
`enabled` is forced to true by kinds A and C (kind D preserves it through
`trust`), `description` is replaced by a constant default (kind C) or
dropped (kinds A and D), and an empty-string URL reloads as absent.  Name,
command, args, env, transport, and any truthy URL are preserved exactly.
The round trip does not extend to kind B (saving a fresh config uses the β
sub-format, which drops the URL — see the counterexample) nor to kind E
(which re-derives a remote record's transport from its URL). -/
theorem c3_roundtrip_adapters :
    (∀ (f : PFile) (L : List MCPServer) (r : MCPServer),
        claudeCodeHandler.load f = .ok L → wfServer r = true →
        ∃ f', Handler.addServer claudeCodeHandler f r = .ok f'
          ∧ Handler.getServer claudeCodeHandler f' r.name = .ok (some (normClaude r)))
    ∧ (∀ (f : PFile) (L : List MCPServer) (r : MCPServer),
        vscodeHandler.load f = .ok L → wfServer r = true →
        ∃ f', Handler.addServer vscodeHandler f r = .ok f'
          ∧ Handler.getServer vscodeHandler f' r.name = .ok (some (normVSCode r)))
    ∧ (∀ (f : PFile) (L : List MCPServer) (r : MCPServer),
        geminiHandler.load f = .ok L → wfServer r = true →
        ∃ f', Handler.addServer geminiHandler f r = .ok f'
          ∧ Handler.getServer geminiHandler f' r.name = .ok (some (normGemini r)))
    ∧ (∀ r : MCPServer,
        (normClaude r).name = r.name ∧ (normClaude r).command = r.command
        ∧ (normClaude r).args = r.args ∧ (normClaude r).env = r.env
        ∧ (normClaude r).server_type = r.server_type
        ∧ (normClaude r).enabled = true ∧ (normClaude r).description = none
        ∧ (normVSCode r).name = r.name ∧ (normVSCode r).command = r.command
        ∧ (normVSCode r).args = r.args ∧ (normVSCode r).env = r.env
        ∧ (normVSCode r).server_type = r.server_type
        ∧ (normVSCode r).enabled = true
        ∧ (normGemini r).name = r.name ∧ (normGemini r).command = r.command
        ∧ (normGemini r).args = r.args ∧ (normGemini r).env = r.env
        ∧ (normGemini r).server_type = r.server_type
        ∧ (normGemini r).enabled = r.enabled ∧ (normGemini r).description = none
        ∧ (pyTruthyOptStr r.url = true →
            (normClaude r).url = r.url ∧ (normVSCode r).url = r.url
            ∧ (normGemini r).url = r.url)
        ∧ (r.url = none →
            (normClaude r).url = none ∧ (normVSCode r).url = none
            ∧ (normGemini r).url = none)) := by
  refine ⟨claude_roundtrip, vscode_roundtrip, gemini_roundtrip, ?_⟩
  intro r
  refine ⟨rfl, rfl, rfl, rfl, rfl, rfl, rfl, rfl, rfl, rfl, rfl, rfl, rfl, rfl, rfl, rfl, rfl,
    rfl, rfl, rfl, ?_, ?_⟩
  · intro hu
    have := pyNormUrl_of_truthy r.url hu
    exact ⟨this, this, this⟩
  · intro hu
    simp [normClaude, normVSCode, normGemini, pyNormUrl, hu]

/-- Witness for the amended C3: concrete round trips through each of the
three adapters starting from a missing config. -/
theorem c3_roundtrip_adapters_witness :
    wfServer stdioSample = true ∧ wfServer sseSample = true
    ∧ (∃ f', Handler.addServer claudeCodeHandler .missing stdioSample = .ok f'
        ∧ Handler.getServer claudeCodeHandler f' stdioSample.name
            = .ok (some (normClaude stdioSample)))
    ∧ (∃ f', Handler.addServer vscodeHandler .missing stdioSample = .ok f'
        ∧ Handler.getServer vscodeHandler f' stdioSample.name
            = .ok (some (normVSCode stdioSample)))
    ∧ (∃ f', Handler.addServer geminiHandler .missing sseSample = .ok f'
        ∧ Handler.getServer geminiHandler f' sseSample.name
            = .ok (some (normGemini sseSample))) :=
  ⟨by decide, by decide,
   c3_roundtrip_adapters.1 .missing [] stdioSample rfl (by decide),
   c3_roundtrip_adapters.2.1 .missing [] stdioSample rfl (by decide),
   c3_roundtrip_adapters.2.2.1 .missing [] sseSample rfl (by decide)⟩

theorem loadEntriesOpenCode_mem (l : List (String × JVal)) (out : List MCPServer)
    (h : loadEntriesOpenCode l = .ok out) :
    ∀ m ∈ out, ∃ e ∈ l, parseEntryOpenCode e.1 e.2 = .ok (some m) := by
  induction l generalizing out with
  | nil =>
    simp [loadEntriesOpenCode] at h
    intro m hm
    rw [h] at hm
    simp at hm
  | cons e rest ih =>
    obtain ⟨k, v⟩ := e
    simp only [loadEntriesOpenCode] at h
    cases hp : parseEntryOpenCode k v with
    | error e0 => rw [hp] at h; exact absurd h (by simp)
    | ok om =>
      rw [hp] at h
      cases om with
      | none =>
        intro m hm
        obtain ⟨e2, he2, hp2⟩ := ih out h m hm
        exact ⟨e2, by simp [he2], hp2⟩
      | some s0 =>
        cases hr : loadEntriesOpenCode rest with
        | error e0 => rw [hr] at h; exact absurd h (by simp)
        | ok ss =>
          rw [hr] at h
          have hcons : s0 :: ss = out := by simpa using h
          intro m hm
          rw [← hcons] at hm
          rcases List.mem_cons.mp hm with h1 | h1
          · exact ⟨(k, v), by simp, by rw [h1]; exact hp⟩
          · obtain ⟨e2, he2, hp2⟩ := ih ss hr m h1
            exact ⟨e2, by simp [he2], hp2⟩

theorem parseEntryOpenCode_wf (k : String) (v : JVal) (s : MCPServer)
    (h : parseEntryOpenCode k v = .ok (some s)) : wfServer s = true := by
  unfold parseEntryOpenCode parseOpenCodeLocal parseOpenCodeRemote at h
  repeat' split at h
  all_goals first
    | (rename_i heq2; cases h; exact mkServer_ok_wf _ _ _ _ _ _ _ _ _ heq2)
    | exact absurd h (by simp)

theorem opencodeLoad_wf (f : PFile) (L : List MCPServer)
    (hl : opencodeLoad f = .ok L) : ∀ s ∈ L, wfServer s = true := by
  cases f with
  | missing =>
    have h0 : [] = L := by simpa [opencodeLoad] using hl
    intro s hs
    rw [← h0] at hs
    simp at hs
  | invalid => simp [opencodeLoad] at hl
  | content v =>
    cases v with
    | jobj fields =>
      have hlf : opencodeLoadFields fields = .ok L := hl
      unfold opencodeLoadFields at hlf
      cases hm : jlookup fields "mcp" with
      | none =>
        rw [hm] at hlf
        have h0 : [] = L := by simpa using hlf
        intro s hs
        rw [← h0] at hs
        simp at hs
      | some mv =>
        rw [hm] at hlf
        cases mv with
        | jobj m =>
          intro s hs
          obtain ⟨e, _, hp⟩ := loadEntriesOpenCode_mem _ _ hlf s hs
          exact parseEntryOpenCode_wf e.1 e.2 s hp
        | jnull => exact absurd hlf (by simp)
        | jbool b => exact absurd hlf (by simp)
        | jnum n => exact absurd hlf (by simp)
        | jstr s2 => exact absurd hlf (by simp)
        | jarr xs => exact absurd hlf (by simp)
    | jnull => simp [opencodeLoad] at hl
    | jbool b => simp [opencodeLoad] at hl
    | jnum n => simp [opencodeLoad] at hl
    | jstr s2 => simp [opencodeLoad] at hl
    | jarr xs => simp [opencodeLoad] at hl

theorem parse_serverToOpenCode (s : MCPServer) (v : JVal) (hwf : wfServer s = true)
    (hv : serverToOpenCode s = some v) :
    ∃ m, parseEntryOpenCode s.name v = .ok (some m) ∧ m.name = s.name := by
  have hn := wfServer_name s hwf
  cases hst : s.server_type with
  | stdio =>
    cases hc : s.command.isEmpty with
    | true => simp [serverToOpenCode, hst, hc] at hv
    | false =>
      have hr := readStrList_map (s.command :: s.args)
      simp only [List.map_cons] at hr
      cases henv : s.env.isEmpty with
      | true =>
        have he2 : s.env = [] := by simpa using henv
        have hv2 : v = .jobj [("type", .jstr "local"),
            ("command", .jarr ((s.command :: s.args).map .jstr)),
            ("enabled", .jbool s.enabled)] := by
          rw [serverToOpenCode] at hv
          simp [hst, hc, henv] at hv
          exact hv.symm
        refine ⟨⟨s.name, s.command, s.args, s.env, .stdio, none, s.enabled, none⟩, ?_, rfl⟩
        rw [hv2, he2]
        simp [parseEntryOpenCode, parseOpenCodeLocal, getBoolD, getStrMapD, jlookup,
          hr, readStrMap_map, mkServer, hn, stypeNeedsUrl]
      | false =>
        have hv2 : v = .jobj ([("type", .jstr "local"),
            ("command", .jarr ((s.command :: s.args).map .jstr)),
            ("enabled", .jbool s.enabled)]
            ++ [("environment", .jobj (s.env.map (fun p => (p.1, .jstr p.2))))]) := by
          rw [serverToOpenCode] at hv
          simp [hst, hc, henv] at hv
          exact hv.symm
        refine ⟨⟨s.name, s.command, s.args, s.env, .stdio, none, s.enabled, none⟩, ?_, rfl⟩
        rw [hv2]
        simp [parseEntryOpenCode, parseOpenCodeLocal, getBoolD, getStrMapD, jlookup,
          hr, readStrMap_map, mkServer, hn, stypeNeedsUrl]
  | sse =>
    have hurl := wfServer_url s hwf (by rw [hst]; rfl)
    rcases hu : s.url with _ | u
    · rw [hu] at hurl; simp [pyTruthyOptStr] at hurl
    · rw [hu] at hurl
      have hue : u.isEmpty = false := by simpa [pyTruthyOptStr] using hurl
      have hv2 : v = .jobj [("type", .jstr "remote"), ("url", .jstr u),
          ("enabled", .jbool s.enabled)] := by
        rw [serverToOpenCode] at hv
        simp [hst, hu, hue] at hv
        exact hv.symm
      cases hifc : ("http://".data.isPrefixOf u.data && !pyContains "sse" u) with
      | true =>
        refine ⟨⟨s.name, "", [], [], .http, some u, s.enabled, none⟩, ?_, rfl⟩
        rw [hv2]
        simp [parseEntryOpenCode, parseOpenCodeRemote, getBoolD, getStrD, jlookup,
          mkServer, hn, stypeNeedsUrl, pyTruthyOptStr, hue, hifc]
      | false =>
        refine ⟨⟨s.name, "", [], [], .sse, some u, s.enabled, none⟩, ?_, rfl⟩
        rw [hv2]
        simp [parseEntryOpenCode, parseOpenCodeRemote, getBoolD, getStrD, jlookup,
          mkServer, hn, stypeNeedsUrl, pyTruthyOptStr, hue, hifc]
  | http =>
    have hurl := wfServer_url s hwf (by rw [hst]; rfl)
    rcases hu : s.url with _ | u
    · rw [hu] at hurl; simp [pyTruthyOptStr] at hurl
    · rw [hu] at hurl
      have hue : u.isEmpty = false := by simpa [pyTruthyOptStr] using hurl
      have hv2 : v = .jobj [("type", .jstr "remote"), ("url", .jstr u),
          ("enabled", .jbool s.enabled)] := by
        rw [serverToOpenCode] at hv
        simp [hst, hu, hue] at hv
        exact hv.symm
      cases hifc : ("http://".data.isPrefixOf u.data && !pyContains "sse" u) with
      | true =>
        refine ⟨⟨s.name, "", [], [], .http, some u, s.enabled, none⟩, ?_, rfl⟩
        rw [hv2]
        simp [parseEntryOpenCode, parseOpenCodeRemote, getBoolD, getStrD, jlookup,
          mkServer, hn, stypeNeedsUrl, pyTruthyOptStr, hue, hifc]
      | false =>
        refine ⟨⟨s.name, "", [], [], .sse, some u, s.enabled, none⟩, ?_, rfl⟩
        rw [hv2]
        simp [parseEntryOpenCode, parseOpenCodeRemote, getBoolD, getStrD, jlookup,
          mkServer, hn, stypeNeedsUrl, pyTruthyOptStr, hue, hifc]

theorem opencodeLoad_saveFields (fields : List (String × JVal)) (ss : List MCPServer) :
    opencodeLoad (.content (opencodeSaveFields fields ss))
    = loadEntriesOpenCode (buildObjWith serverToOpenCode ss) := by
  have h1 : opencodeLoad (.content (opencodeSaveFields fields ss))
      = (match jlookup (jset (if (jlookup fields "$schema").isNone
            then jset fields "$schema" (.jstr "https://opencode.ai/config.json")
            else fields) "mcp" (.jobj (buildObjWith serverToOpenCode ss))) "mcp" with
         | none => (.ok [] : Except ErrKind (List MCPServer))
         | some (.jobj m) => loadEntriesOpenCode m
         | some _ => .error .pyError) := rfl
  rw [h1, jlookup_jset_self]

/-- C10: the opencode adapter's save silently skips records it cannot
encode — a stdio record with an empty command, or an sse/http record with
no URL, has no per-server object (`serverToOpenCode` is `none`), so
`add_server` succeeds without writing an entry for it and a subsequent
`get_server` on its name returns `None`, with no error raised anywhere. -/
theorem c10_opencode_silent_skip (f : PFile) (L : List MCPServer) (r : MCPServer)
    (hl : opencodeHandler.load f = .ok L)
    (hbad : (r.server_type = .stdio ∧ r.command = "") ∨
            ((r.server_type = .sse ∨ r.server_type = .http) ∧ r.url = none)) :
    serverToOpenCode r = none ∧
    ∃ f', opencodeHandler.addServer f r = .ok f' ∧
      opencodeHandler.getServer f' r.name = .ok none := by
  have henc : serverToOpenCode r = none := by
    rcases hbad with ⟨hst, hcmd⟩ | ⟨hst, hu⟩
    · have hce : r.command.isEmpty = true := by rw [hcmd]; rfl
      simp [serverToOpenCode, hst, hce]
    · rcases hst with hst | hst <;> simp [serverToOpenCode, hst, hu]
  refine ⟨henc, ?_⟩
  have hwL : ∀ s ∈ L, wfServer s = true := opencodeLoad_wf f L hl
  have hwL' : ∀ s ∈ L.filter (fun s => !(s.name == r.name)), wfServer s = true :=
    fun s hs => hwL s (List.mem_of_mem_filter hs)
  have hneL' : ∀ s ∈ L.filter (fun s => !(s.name == r.name)), s.name ≠ r.name := by
    intro s hs
    have h2 := List.of_mem_filter hs
    simpa using h2
  have hsame : buildObjWith serverToOpenCode (L.filter (fun s => !(s.name == r.name)) ++ [r])
      = buildObjWith serverToOpenCode (L.filter (fun s => !(s.name == r.name))) := by
    rw [buildObjWith_append_single]
    simp [buildStep, henc]
  have hforall : ∀ e ∈ buildObjWith serverToOpenCode
      (L.filter (fun s => !(s.name == r.name))),
      ∃ om, parseEntryOpenCode e.1 e.2 = .ok om ∧ ∀ m, om = some m → m.name ≠ r.name :=
    buildObjWith_prop serverToOpenCode
      (fun e => ∃ om, parseEntryOpenCode e.1 e.2 = .ok om ∧ ∀ m, om = some m → m.name ≠ r.name)
      _ (fun s hs v hv => by
          obtain ⟨m, hm, hmn⟩ := parse_serverToOpenCode s v (hwL' s hs) hv
          exact ⟨some m, hm, fun m2 he => by cases he; rw [hmn]; exact hneL' s hs⟩)
  obtain ⟨out, hout, hQ⟩ := loadEntriesOpenCode_ok_of (fun m => m.name ≠ r.name) _ hforall
  have hfind : out.find? (fun s => s.name == r.name) = none := by
    rw [List.find?_eq_none]
    intro x hx
    simp only [beq_iff_eq]
    exact hQ x hx
  cases f with
  | invalid => simp [opencodeHandler, opencodeLoad] at hl
  | missing =>
    have hsv : opencodeSave .missing (L.filter (fun s => !(s.name == r.name)) ++ [r])
        = .ok (opencodeSaveFields [] (L.filter (fun s => !(s.name == r.name)) ++ [r])) := rfl
    refine ⟨_, addServer_of_load_save opencodeHandler _ L r _ hl hsv, ?_⟩
    have hload' : opencodeHandler.load (.content (opencodeSaveFields []
        (L.filter (fun s => !(s.name == r.name)) ++ [r]))) = .ok out := by
      show opencodeLoad (.content (opencodeSaveFields []
        (L.filter (fun s => !(s.name == r.name)) ++ [r]))) = .ok out
      rw [opencodeLoad_saveFields, hsame]
      exact hout
    rw [getServer_of_load opencodeHandler _ _ r.name hload', hfind]
  | content v =>
    cases v with
    | jobj fields =>
      have hsv : opencodeSave (.content (.jobj fields))
          (L.filter (fun s => !(s.name == r.name)) ++ [r])
          = .ok (opencodeSaveFields fields
              (L.filter (fun s => !(s.name == r.name)) ++ [r])) := rfl
      refine ⟨_, addServer_of_load_save opencodeHandler _ L r _ hl hsv, ?_⟩
      have hload' : opencodeHandler.load (.content (opencodeSaveFields fields
          (L.filter (fun s => !(s.name == r.name)) ++ [r]))) = .ok out := by
        show opencodeLoad (.content (opencodeSaveFields fields
          (L.filter (fun s => !(s.name == r.name)) ++ [r]))) = .ok out
        rw [opencodeLoad_saveFields, hsame]
        exact hout
      rw [getServer_of_load opencodeHandler _ _ r.name hload', hfind]
    | jnull => simp [opencodeHandler, opencodeLoad] at hl
    | jbool b => simp [opencodeHandler, opencodeLoad] at hl
    | jnum n => simp [opencodeHandler, opencodeLoad] at hl
    | jstr s2 => simp [opencodeHandler, opencodeLoad] at hl
    | jarr xs => simp [opencodeHandler, opencodeLoad] at hl

/-- Witness for C10: on a fresh config, adding the stdio record named
`skip` with an empty command writes nothing, and `get_server "skip"`
afterwards returns `None`. -/
theorem c10_opencode_silent_skip_witness :
    opencodeHandler.load .missing = .ok ([] : List MCPServer) ∧
    (serverToOpenCode ⟨"skip", "", [], [], .stdio, none, true, none⟩ = none ∧
     ∃ f', opencodeHandler.addServer .missing
         ⟨"skip", "", [], [], .stdio, none, true, none⟩ = .ok f' ∧
       opencodeHandler.getServer f' "skip" = .ok none) :=
  ⟨rfl, c10_opencode_silent_skip .missing []
      ⟨"skip", "", [], [], .stdio, none, true, none⟩ rfl (Or.inl ⟨rfl, rfl⟩)⟩
